import Mathlib

/-!
Verification of the scalar reverse-mode automatic differentiation engine
(package micrograd, file engine.go).

Embedding conventions:
* float64 is modelled by the type F: an exact rational for finite values,
  plus positive infinity, negative infinity and NaN.  Every concrete
  computation appearing in the theorems below stays on small integers, where
  float64 arithmetic is exact, so the exact-rational idealization agrees with
  the source.  The two transcendental library calls (math.Log, and math.Pow
  on a positive base with a non-integer exponent) have no exact rational
  value; they are modelled by an arbitrary approximation table (Transcend)
  over which all theorems are universally quantified.
* Go pointers are modelled by an arena: the heap is a List Node and a node
  reference is its index (allocation order).  Node identity is index
  equality, exactly as pointer identity in the source.  The source mutates
  only the grad field after construction; the embedding passes the heap
  explicitly through every operation.
* The per-node backward closure of the source is determined, at closure
  creation time, by the constructor that made the node together with the
  operand pointers it captured.  The embedding records that information as
  the op tag plus the children list and replays the closure body in
  backStep; field reads inside a closure body are performed sequentially
  against the current heap, exactly as the Go statements execute.
-/

namespace Micrograd

/-- Model of a float64 value: exact rational, infinities, or NaN. -/
inductive F where
  | fin : ℚ → F
  | pinf : F
  | ninf : F
  | nan : F
deriving DecidableEq, Repr

/-- Approximation tables for the transcendental float64 operations:
rpow x y models math.Pow for a positive base x and non-integer exponent y,
and ln x models math.Log for a positive argument x.  No theorem depends on
the actual values, so they are kept abstract. -/
structure Transcend where
  rpow : ℚ → ℚ → ℚ
  ln : ℚ → ℚ

/-- A fixed trivial approximation table, used to instantiate theorems. -/
def T0 : Transcend := ⟨fun _ _ => 0, fun _ => 0⟩

/-- IEEE addition on the float model (exact in the finite case). -/
def addF : F → F → F
  | F.fin a, F.fin b => F.fin (a + b)
  | F.fin _, F.pinf => F.pinf
  | F.fin _, F.ninf => F.ninf
  | F.pinf, F.fin _ => F.pinf
  | F.ninf, F.fin _ => F.ninf
  | F.pinf, F.pinf => F.pinf
  | F.ninf, F.ninf => F.ninf
  | _, _ => F.nan

/-- IEEE negation on the float model. -/
def negF : F → F
  | F.fin a => F.fin (-a)
  | F.pinf => F.ninf
  | F.ninf => F.pinf
  | F.nan => F.nan

/-- IEEE subtraction on the float model. -/
def subF (a b : F) : F := addF a (negF b)

/-- IEEE multiplication on the float model (exact in the finite case). -/
def mulF : F → F → F
  | F.fin a, F.fin b => F.fin (a * b)
  | F.fin a, F.pinf => if 0 < a then F.pinf else if a < 0 then F.ninf else F.nan
  | F.fin a, F.ninf => if 0 < a then F.ninf else if a < 0 then F.pinf else F.nan
  | F.pinf, F.fin b => if 0 < b then F.pinf else if b < 0 then F.ninf else F.nan
  | F.ninf, F.fin b => if 0 < b then F.ninf else if b < 0 then F.pinf else F.nan
  | F.pinf, F.pinf => F.pinf
  | F.pinf, F.ninf => F.ninf
  | F.ninf, F.pinf => F.ninf
  | F.ninf, F.ninf => F.pinf
  | _, _ => F.nan

/-- The strict comparison v > 0 on the float model (false on NaN),
as used by the guards in the source. -/
def gtZero : F → Bool
  | F.fin a => decide (0 < a)
  | F.pinf => true
  | F.ninf => false
  | F.nan => false

/-- Model of math.Pow, following the special cases documented for the Go
math package.  Integer exponents on finite bases are computed exactly; a
positive base with a non-integer exponent defers to the approximation
table; a negative base with a non-integer exponent is NaN.  The model has
no negative zero, so the one float64 input class that is collapsed is
x = -0, which no constructor of this engine produces. -/
def powF (T : Transcend) (x y : F) : F :=
  match x, y with
  | x, F.fin q =>
    if q = 0 then F.fin 1
    else
      match x with
      | F.fin a =>
        if a = 1 then F.fin 1
        else if q.den = 1 then
          (if a = 0 then (if q.num < 0 then F.pinf else F.fin 0)
           else F.fin (a ^ q.num))
        else
          (if a = 0 then (if q < 0 then F.pinf else F.fin 0)
           else if 0 < a then F.fin (T.rpow a q)
           else F.nan)
      | F.pinf => if 0 < q then F.pinf else F.fin 0
      | F.ninf =>
          if 0 < q then (if q.den = 1 && q.num % 2 ≠ 0 then F.ninf else F.pinf)
          else F.fin 0
      | F.nan => F.nan
  | F.fin a, F.pinf =>
      if a = 1 then F.fin 1
      else if a = -1 then F.fin 1
      else if a = 0 then F.fin 0
      else if a < -1 ∨ 1 < a then F.pinf
      else F.fin 0
  | F.fin a, F.ninf =>
      if a = 1 then F.fin 1
      else if a = -1 then F.fin 1
      else if a = 0 then F.pinf
      else if a < -1 ∨ 1 < a then F.fin 0
      else F.pinf
  | F.pinf, F.pinf => F.pinf
  | F.ninf, F.pinf => F.pinf
  | F.pinf, F.ninf => F.fin 0
  | F.ninf, F.ninf => F.fin 0
  | F.nan, F.pinf => F.nan
  | F.nan, F.ninf => F.nan
  | x, F.nan => if x = F.fin 1 then F.fin 1 else F.nan

/-- Model of math.Log, following the special cases documented for the Go
math package; the positive finite case defers to the approximation table. -/
def lnF (T : Transcend) : F → F
  | F.fin a => if 0 < a then F.fin (T.ln a) else if a = 0 then F.ninf else F.nan
  | F.pinf => F.pinf
  | F.ninf => F.nan
  | F.nan => F.nan

/-- The tag recorded for a node, standing for the backward closure its
constructor installed.  Op.leaf stands for the no-op closure installed by
NewValue and by convertToValue for scalar-constant nodes. -/
inductive Op where
  | leaf : Op
  | add : Op
  | addScalar : Op
  | mul : Op
  | pow : Op
  | relu : Op
deriving DecidableEq, Repr

/-- The Value struct of the source: forward data, gradient accumulator,
operand references (arena indices) and the closure tag. -/
structure Node where
  data : F
  grad : F
  children : List Nat
  op : Op
deriving DecidableEq, Repr

/-- Forward value of the node at index n (NaN when out of range; all
theorems stay in range). -/
def dataOf (g : List Node) (n : Nat) : F :=
  match g.get? n with
  | some nd => nd.data
  | none => F.nan

/-- Gradient accumulator of the node at index n. -/
def gradOf (g : List Node) (n : Nat) : F :=
  match g.get? n with
  | some nd => nd.grad
  | none => F.nan

/-- Operand list of the node at index n. -/
def childrenOf (g : List Node) (n : Nat) : List Nat :=
  match g.get? n with
  | some nd => nd.children
  | none => []

/-- Overwrite the gradient accumulator of node n (the root reseed). -/
def setGrad (g : List Node) (n : Nat) (x : F) : List Node :=
  match g.get? n with
  | some nd => g.set n { nd with grad := x }
  | none => g

/-- Accumulate into the gradient of node n: the += statements of the
backward closures. -/
def addGrad (g : List Node) (n : Nat) (x : F) : List Node :=
  match g.get? n with
  | some nd => g.set n { nd with grad := addF nd.grad x }
  | none => g

/-- The constructor shared by all operators: allocate a fresh node with
gradient 0 at the end of the arena and return its index. -/
def convertToValue (g : List Node) (data : F) (children : List Nat) (op : Op) :
    List Node × Nat :=
  (g ++ [{ data := data, grad := F.fin 0, children := children, op := op }], g.length)

/-- NewValue: wrap a raw scalar as a node with no operands and the no-op
closure. -/
def NewValue (g : List Node) (x : F) : List Node × Nat :=
  convertToValue g x [] Op.leaf

/-- Add: forward sum, closure accumulates the output gradient into both
operands. -/
def Add (g : List Node) (v other : Nat) : List Node × Nat :=
  convertToValue g (addF (dataOf g v) (dataOf g other)) [v, other] Op.add

/-- AddScalar: forward sum with a constant, closure touches only the node
operand. -/
def AddScalar (g : List Node) (v : Nat) (scalar : F) : List Node × Nat :=
  convertToValue g (addF (dataOf g v) scalar) [v] Op.addScalar

/-- Multiply: forward product, closure accumulates cross-weighted output
gradients. -/
def Multiply (g : List Node) (v other : Nat) : List Node × Nat :=
  convertToValue g (mulF (dataOf g v) (dataOf g other)) [v, other] Op.mul

/-- MulScalar: Multiply against a freshly allocated scalar-constant node. -/
def MulScalar (g : List Node) (v : Nat) (scalar : F) : List Node × Nat :=
  let s := convertToValue g scalar [] Op.leaf
  Multiply s.1 v s.2

/-- Pow: forward math.Pow, closure with the two guarded gradient terms. -/
def Pow (T : Transcend) (g : List Node) (v exp : Nat) : List Node × Nat :=
  convertToValue g (powF T (dataOf g v) (dataOf g exp)) [v, exp] Op.pow

/-- PowScalar: Pow against a freshly allocated scalar-constant node. -/
def PowScalar (T : Transcend) (g : List Node) (v : Nat) (scalar : F) :
    List Node × Nat :=
  let s := convertToValue g scalar [] Op.leaf
  Pow T s.1 v s.2

/-- ReLU: forward max with zero via the strict positive test of the source,
closure passes the output gradient through only on the positive branch. -/
def ReLU (g : List Node) (v : Nat) : List Node × Nat :=
  convertToValue g (if gtZero (dataOf g v) then dataOf g v else F.fin 0) [v] Op.relu

/-- Neg: Multiply against a freshly allocated constant -1 node. -/
def Neg (g : List Node) (v : Nat) : List Node × Nat :=
  let s := convertToValue g (F.fin (-1)) [] Op.leaf
  Multiply s.1 v s.2

/-- Sub: Add of the negated second operand. -/
def Sub (g : List Node) (v other : Nat) : List Node × Nat :=
  let m := Neg g other
  Add m.1 v m.2

/-- SubScalar: Sub against a freshly allocated constant node. -/
def SubScalar (g : List Node) (v : Nat) (scalar : F) : List Node × Nat :=
  let s := convertToValue g scalar [] Op.leaf
  Sub s.1 v s.2

/-- Div: Multiply against the -1 power of the second operand. -/
def Div (T : Transcend) (g : List Node) (v other : Nat) : List Node × Nat :=
  let p := PowScalar T g other (F.fin (-1))
  Multiply p.1 v p.2

/-- DivScalar: Div against a freshly allocated constant node. -/
def DivScalar (T : Transcend) (g : List Node) (v : Nat) (scalar : F) :
    List Node × Nat :=
  let s := convertToValue g scalar [] Op.leaf
  Div T s.1 v s.2

/-- Replay of the backward closure of node n, dispatched on the tag and the
captured operand indices.  Each heap read happens at the sequential position
of the corresponding read in the Go closure body. -/
def backStep (T : Transcend) (g : List Node) (n : Nat) : List Node :=
  match g.get? n with
  | none => g
  | some nd =>
    match nd.op, nd.children with
    | Op.add, [a, b] =>
      let g1 := addGrad g a (gradOf g n)
      addGrad g1 b (gradOf g1 n)
    | Op.addScalar, [a] => addGrad g a (gradOf g n)
    | Op.mul, [a, b] =>
      let g1 := addGrad g a (mulF (dataOf g b) (gradOf g n))
      addGrad g1 b (mulF (dataOf g1 a) (gradOf g1 n))
    | Op.pow, [a, b] =>
      let g1 :=
        if dataOf g a ≠ F.fin 0 then
          addGrad g a
            (mulF (mulF (dataOf g b)
                (powF T (dataOf g a) (subF (dataOf g b) (F.fin 1))))
              (gradOf g n))
        else g
      if gtZero (dataOf g1 a) then
        addGrad g1 b
          (mulF (mulF (lnF T (dataOf g1 a)) (dataOf g1 n)) (gradOf g1 n))
      else g1
    | Op.relu, [a] =>
      if gtZero (dataOf g a) then addGrad g a (gradOf g n) else g
    | _, _ => g

/-- The depth-first post-order traversal of Backward: mark the node visited,
recurse into its operands, then append the node to the order.  The source
recursion terminates through the visited set; the embedding carries fuel,
and the theorems show the fuel used by topoOrder never runs out on graphs
the constructors can build. -/
def buildTopoAux (g : List Node) :
    Nat → Nat → List Nat × List Nat → List Nat × List Nat
  | 0, _, st => st
  | fuel + 1, n, st =>
    if n ∈ st.1 then st
    else
      let st1 := (childrenOf g n).foldl
        (fun s c => buildTopoAux g fuel c s) (n :: st.1, st.2)
      (st1.1, st1.2 ++ [n])

/-- The topological order Backward builds from the root. -/
def topoOrder (g : List Node) (root : Nat) : List Nat :=
  (buildTopoAux g (root + 1) root ([], [])).2

/-- The reverse loop of Backward over an already-reversed order, carrying
the processed set of the source. -/
def backPass (T : Transcend) : List Nat → List Node × List Nat → List Node × List Nat
  | [], st => st
  | n :: rest, st =>
      if n ∈ st.2 then backPass T rest st
      else backPass T rest (backStep T st.1 n, n :: st.2)

/-- Backward: reseed the root gradient to 1, build the topological order,
then walk it in reverse replaying each closure at most once (the processed
set of the source). -/
def Backward (T : Transcend) (g : List Node) (v : Nat) : List Node :=
  let g1 := setGrad g v (F.fin 1)
  (backPass T (topoOrder g1 v).reverse (g1, [])).1

/-! ## Structural properties of arenas built by the constructors -/

/-- Well-formedness: every operand reference points strictly below the node
holding it.  Every constructor above allocates at the top of the arena and
wires only already-existing nodes, so every reachable heap satisfies WF;
it is exactly the acyclicity-by-construction argument of the source. -/
def WF (g : List Node) : Prop := ∀ n c, c ∈ childrenOf g n → c < n

/-- Boolean check of WF, for concrete arenas. -/
def wfb (g : List Node) : Bool :=
  (List.range g.length).all fun n => (childrenOf g n).all fun c => decide (c < n)

lemma WF_of_wfb (g : List Node) (h : wfb g = true) : WF g := by
  intro n c hc
  have hsome : ∃ nd, g.get? n = some nd := by
    unfold childrenOf at hc
    cases hg : g.get? n with
    | none => rw [hg] at hc; simp at hc
    | some nd => exact ⟨nd, rfl⟩
  obtain ⟨nd, hnd⟩ := hsome
  have hlen : n < g.length := by
    rcases List.get?_eq_some.mp hnd with ⟨h1, _⟩
    exact h1
  have := (List.all_eq_true.mp h) n (List.mem_range.mpr hlen)
  have := (List.all_eq_true.mp this) c hc
  exact of_decide_eq_true this

/-- Reachability through the operand relation (reflexive). -/
inductive Reaches (g : List Node) : Nat → Nat → Prop where
  | refl (n : Nat) : Reaches g n n
  | step {n c m : Nat} : c ∈ childrenOf g n → Reaches g c m → Reaches g n m

lemma Reaches.le {g : List Node} (hwf : WF g) {n m : Nat}
    (h : Reaches g n m) : m ≤ n := by
  induction h with
  | refl => exact le_rfl
  | step hc _ ih => exact ih.trans (Nat.le_of_lt (hwf _ _ hc))

lemma Reaches.child {g : List Node} {n k c : Nat}
    (h : Reaches g n k) (hc : c ∈ childrenOf g k) : Reaches g n c := by
  induction h with
  | refl => exact Reaches.step hc (Reaches.refl c)
  | step hd _ ih => exact Reaches.step hd (ih hc)

lemma Reaches.congr {g g2 : List Node}
    (hch : ∀ m, childrenOf g2 m = childrenOf g m) {n m : Nat}
    (h : Reaches g n m) : Reaches g2 n m := by
  induction h with
  | refl => exact Reaches.refl _
  | step hc _ ih => exact Reaches.step (by rw [hch]; exact hc) ih

/-- The order property the spec promises of the topological order: every
element has all of its operands among the elements strictly before it
(seen accumulates the earlier elements). -/
def TopoOKAux (g : List Node) : List Nat → List Nat → Prop
  | _, [] => True
  | seen, n :: rest =>
      (∀ c ∈ childrenOf g n, c ∈ seen) ∧ TopoOKAux g (seen ++ [n]) rest

/-- Every element of the list is preceded by all of its operands. -/
def TopoOK (g : List Node) (t : List Nat) : Prop := TopoOKAux g [] t

lemma topoOKAux_append (g : List Node) (n : Nat) :
    ∀ (t s : List Nat),
      TopoOKAux g s (t ++ [n]) ↔
        TopoOKAux g s t ∧ ∀ c ∈ childrenOf g n, c ∈ s ∨ c ∈ t := by
  intro t
  induction t with
  | nil =>
    intro s
    simp [TopoOKAux]
  | cons m rest ih =>
    intro s
    simp only [List.cons_append, TopoOKAux, List.append_eq, ih (s ++ [m])]
    constructor
    · rintro ⟨h1, h2, h3⟩
      refine ⟨⟨h1, h2⟩, fun c hc => ?_⟩
      rcases h3 c hc with h | h
      · rcases List.mem_append.mp h with h | h
        · exact Or.inl h
        · simp at h; simp [h]
      · simp [h]
    · rintro ⟨⟨h1, h2⟩, h3⟩
      refine ⟨h1, h2, fun c hc => ?_⟩
      rcases h3 c hc with h | h
      · exact Or.inl (List.mem_append.mpr (Or.inl h))
      · rcases List.mem_cons.mp h with h | h
        · subst h; exact Or.inl (List.mem_append.mpr (Or.inr (by simp)))
        · exact Or.inr h

lemma topoOKAux_closed (g : List Node) :
    ∀ (t s : List Nat), TopoOKAux g s t →
      ∀ m ∈ t, ∀ c ∈ childrenOf g m, c ∈ s ∨ c ∈ t := by
  intro t
  induction t with
  | nil => intro s _ m hm; simp at hm
  | cons k rest ih =>
    intro s h m hm c hc
    rcases h with ⟨h1, h2⟩
    rcases List.mem_cons.mp hm with hm | hm
    · subst hm
      exact Or.imp_right (fun h => List.mem_cons.mpr (Or.inr h))
        (Or.inl (h1 c hc))
    · rcases ih (s ++ [k]) h2 m hm c hc with h | h
      · rcases List.mem_append.mp h with h | h
        · exact Or.inl h
        · simp at h; simp [h]
      · simp [h]

lemma topoOK_closed_mem (g : List Node) {t : List Nat} (h : TopoOK g t)
    {n x : Nat} (hr : Reaches g n x) : n ∈ t → x ∈ t := by
  induction hr with
  | refl => exact id
  | step hc _ ih =>
    intro hn
    apply ih
    rcases topoOKAux_closed g t [] h _ hn _ hc with hmem | hmem
    · simp at hmem
    · exact hmem

/-- Postcondition of one buildTopoAux call from node n on state (vis, topo):
the order grows by appended elements only, stays duplicate-free and
operand-closed, everything appended is reachable from n, n itself ends up
in the order, and the only visited-but-unfinished nodes are the ones that
were already visited before the call and lie strictly above n (the grey
ancestors of the depth-first search). -/
def BTOut (g : List Node) (n : Nat) (vis topo : List Nat)
    (st : List Nat × List Nat) : Prop :=
  (∃ d, st.2 = topo ++ d) ∧
  st.2.Nodup ∧
  TopoOK g st.2 ∧
  (∀ x ∈ st.2, x ∈ st.1) ∧
  (∀ x ∈ vis, x ∈ st.1) ∧
  (∀ x ∈ st.1, x ∈ st.2 ∨ (x ∈ vis ∧ n < x)) ∧
  n ∈ st.2 ∧
  (∀ x ∈ st.2, x ∈ topo ∨ Reaches g n x)

/-- Invariant carried through the fold over the operand list of node n,
relative to the state (VIS, TOPO) at the entry of the call on n. -/
def BTInv (g : List Node) (n : Nat) (VIS TOPO : List Nat)
    (st : List Nat × List Nat) : Prop :=
  st.2.Nodup ∧
  TopoOK g st.2 ∧
  (∃ d, st.2 = TOPO ++ d) ∧
  (∀ x ∈ st.2, x ∈ st.1) ∧
  (∀ x ∈ st.1, x ∈ st.2 ∨ x = n ∨ (x ∈ VIS ∧ n < x)) ∧
  (∀ x ∈ st.2, x ∈ TOPO ∨ (Reaches g n x ∧ x < n)) ∧
  n ∈ st.1 ∧
  (∀ x ∈ VIS, x ∈ st.1)

lemma buildTopoAux_fold_spec (g : List Node) (hwf : WF g) (fuel : Nat)
    (IH : ∀ m vis topo, m < fuel → topo.Nodup → TopoOK g topo →
      (∀ x ∈ topo, x ∈ vis) → (∀ x ∈ vis, x ∈ topo ∨ m < x) →
      BTOut g m vis topo (buildTopoAux g fuel m (vis, topo)))
    (n : Nat) (hn : n ≤ fuel) (VIS TOPO : List Nat) :
    ∀ (cs : List Nat) (st : List Nat × List Nat),
      (∀ c ∈ cs, c ∈ childrenOf g n) →
      BTInv g n VIS TOPO st →
      BTInv g n VIS TOPO (cs.foldl (fun s c => buildTopoAux g fuel c s) st) ∧
      (∃ d, (cs.foldl (fun s c => buildTopoAux g fuel c s) st).2 = st.2 ++ d) ∧
      (∀ c ∈ cs, c ∈ (cs.foldl (fun s c => buildTopoAux g fuel c s) st).2) := by
  intro cs
  induction cs with
  | nil => intro st _ hinv; exact ⟨hinv, ⟨[], by simp⟩, by simp⟩
  | cons c cs ih =>
    intro st hcs hinv
    obtain ⟨hnd, hok, ⟨d0, hpre⟩, hsub, hvis, htp, hnvis, hVIS⟩ := hinv
    have hc : c ∈ childrenOf g n := hcs c (by simp)
    have hcn : c < n := hwf n c hc
    have hcf : c < fuel := lt_of_lt_of_le hcn hn
    have hgrey : ∀ x ∈ st.1, x ∈ st.2 ∨ c < x := by
      intro x hx
      rcases hvis x hx with h | h | h
      · exact Or.inl h
      · subst h; exact Or.inr hcn
      · exact Or.inr (hcn.trans h.2)
    have hout := IH c st.1 st.2 hcf hnd hok hsub hgrey
    obtain ⟨⟨d1, hpre1⟩, hnd1, hok1, hsub1, hvis1, htv1, hcin1, hreach1⟩ := hout
    set st1 := buildTopoAux g fuel c (st.1, st.2) with hst1
    have hmono2 : ∀ x ∈ st.2, x ∈ st1.2 := by
      intro x hx; rw [hpre1]; exact List.mem_append.mpr (Or.inl hx)
    have hinv1 : BTInv g n VIS TOPO st1 := by
      refine ⟨hnd1, hok1, ⟨d0 ++ d1, by rw [hpre1, hpre, List.append_assoc]⟩,
        hsub1, ?_, ?_, hvis1 n hnvis, fun x hx => hvis1 x (hVIS x hx)⟩
      · intro x hx
        rcases htv1 x hx with h | h
        · exact Or.inl h
        · rcases hvis x h.1 with h2 | h2 | h2
          · exact Or.inl (hmono2 x h2)
          · exact Or.inr (Or.inl h2)
          · exact Or.inr (Or.inr h2)
      · intro x hx
        rcases hreach1 x hx with h | h
        · exact htp x h
        · exact Or.inr ⟨Reaches.step hc h, lt_of_le_of_lt (h.le hwf) hcn⟩
    have hrec := ih st1 (fun a ha => hcs a (by simp [ha])) hinv1
    obtain ⟨hrinv, ⟨d3, hd3⟩, hrmem⟩ := hrec
    have hfold : (c :: cs).foldl (fun s c => buildTopoAux g fuel c s) st
        = cs.foldl (fun s c => buildTopoAux g fuel c s) st1 := by
      simp [hst1]
    rw [hfold]
    refine ⟨hrinv, ⟨d1 ++ d3, by rw [hd3, hpre1, List.append_assoc]⟩, ?_⟩
    intro a ha
    rcases List.mem_cons.mp ha with ha | ha
    · subst ha
      rw [hd3]
      exact List.mem_append.mpr (Or.inl hcin1)
    · exact hrmem a ha

lemma buildTopoAux_spec (g : List Node) (hwf : WF g) :
    ∀ (fuel n : Nat) (vis topo : List Nat), n < fuel →
      topo.Nodup → TopoOK g topo →
      (∀ x ∈ topo, x ∈ vis) → (∀ x ∈ vis, x ∈ topo ∨ n < x) →
      BTOut g n vis topo (buildTopoAux g fuel n (vis, topo)) := by
  intro fuel
  induction fuel with
  | zero => intro n vis topo hlt; exact absurd hlt (Nat.not_lt_zero n)
  | succ fuel IH =>
    intro n vis topo hlt hnd hok hsub hgrey
    by_cases hv : n ∈ vis
    · have hnt : n ∈ topo := by
        rcases hgrey n hv with h | h
        · exact h
        · exact absurd h (lt_irrefl n)
      simp only [buildTopoAux, hv, if_pos]
      exact ⟨⟨[], by simp⟩, hnd, hok, hsub, fun x hx => hx,
        fun x hx => Or.elim (hgrey x hx) Or.inl (fun h => Or.inr ⟨hx, h⟩),
        hnt, fun x hx => Or.inl hx⟩
    · have hinv0 : BTInv g n vis topo (n :: vis, topo) := by
        refine ⟨hnd, hok, ⟨[], by simp⟩, fun x hx => by simp [hsub x hx], ?_,
          fun x hx => Or.inl hx, by simp, fun x hx => by simp [hx]⟩
        intro x hx
        rcases List.mem_cons.mp hx with h | h
        · exact Or.inr (Or.inl h)
        · rcases hgrey x h with h2 | h2
          · exact Or.inl h2
          · exact Or.inr (Or.inr ⟨h, h2⟩)
      have hfold := buildTopoAux_fold_spec g hwf fuel IH n
        (Nat.le_of_lt_succ hlt) vis topo (childrenOf g n) (n :: vis, topo)
        (fun c hc => hc) hinv0
      obtain ⟨⟨hnd1, hok1, ⟨d2, hd2⟩, hsub1, hvis1, htp1, hnvis1, hVIS1⟩,
        ⟨d4, hd4⟩, hmemc⟩ := hfold
      set st1 := (childrenOf g n).foldl
        (fun s c => buildTopoAux g fuel c s) (n :: vis, topo) with hst1
      have hnnotin : n ∉ st1.2 := by
        intro hmem
        rcases htp1 n hmem with h | h
        · exact hv (hsub n h)
        · exact absurd h.2 (lt_irrefl n)
      have hstep : buildTopoAux g (fuel + 1) n (vis, topo)
          = (st1.1, st1.2 ++ [n]) := by
        rw [hst1]
        simp only [buildTopoAux]
        rw [if_neg hv]
      rw [hstep]
      refine ⟨⟨d2 ++ [n], by rw [hd2, List.append_assoc]⟩, ?_, ?_, ?_, ?_, ?_,
        by simp, ?_⟩
      · simp only [List.nodup_append, List.nodup_cons]
        exact ⟨hnd1, by simp, by simpa using fun h => hnnotin h⟩
      · exact (topoOKAux_append g n st1.2 []).mpr
          ⟨hok1, fun c hc => Or.inr (hmemc c hc)⟩
      · intro x hx
        rcases List.mem_append.mp hx with h | h
        · exact hsub1 x h
        · simp at h; subst h; exact hnvis1
      · intro x hx
        exact hVIS1 x hx
      · intro x hx
        rcases hvis1 x hx with h | h | h
        · exact Or.inl (List.mem_append.mpr (Or.inl h))
        · exact Or.inl (List.mem_append.mpr (Or.inr (by simp [h])))
        · exact Or.inr h
      · intro x hx
        rcases List.mem_append.mp hx with h | h
        · rcases htp1 x h with h2 | h2
          · exact Or.inl h2
          · exact Or.inr h2.1
        · simp at h; subst h; exact Or.inr (Reaches.refl _)

/-- Full specification of the topological order built from any root on a
well-formed arena: the order is duplicate-free, it consists of exactly the
nodes reachable from the root, and every element is preceded by all of its
operands. -/
lemma topoOrder_spec (g : List Node) (root : Nat) (hwf : WF g) :
    (topoOrder g root).Nodup ∧
    (∀ x, x ∈ topoOrder g root ↔ Reaches g root x) ∧
    TopoOK g (topoOrder g root) := by
  have h := buildTopoAux_spec g hwf (root + 1) root [] []
    (Nat.lt_succ_self root) (by simp) trivial (by simp) (by simp)
  obtain ⟨⟨d, hd⟩, hnd, hok, _, _, _, hroot, hreach⟩ := h
  refine ⟨hnd, fun x => ⟨fun hx => ?_, fun hx => ?_⟩, hok⟩
  · rcases hreach x hx with h | h
    · simp at h
    · exact h
  · exact topoOK_closed_mem g hok hx hroot

/-! ## Heap update lemmas -/

lemma dataOf_setGrad (g : List Node) (n : Nat) (x : F) (m : Nat) :
    dataOf (setGrad g n x) m = dataOf g m := by
  unfold setGrad
  cases hg : g.get? n with
  | none => rfl
  | some nd =>
    unfold dataOf
    by_cases h : n = m
    · subst h
      rw [List.get?_set_eq, hg]
      simp [hg]
    · rw [List.get?_set_ne _ _ h]

lemma childrenOf_setGrad (g : List Node) (n : Nat) (x : F) (m : Nat) :
    childrenOf (setGrad g n x) m = childrenOf g m := by
  unfold setGrad
  cases hg : g.get? n with
  | none => rfl
  | some nd =>
    unfold childrenOf
    by_cases h : n = m
    · subst h
      rw [List.get?_set_eq, hg]
      simp [hg]
    · rw [List.get?_set_ne _ _ h]

lemma get?_setGrad_ne (g : List Node) (n : Nat) (x : F) (m : Nat) (h : n ≠ m) :
    (setGrad g n x).get? m = g.get? m := by
  unfold setGrad
  cases hg : g.get? n with
  | none => rfl
  | some nd => rw [List.get?_set_ne _ _ h]

lemma gradOf_setGrad_self (g : List Node) (n : Nat) (x : F) (h : n < g.length) :
    gradOf (setGrad g n x) n = x := by
  obtain ⟨nd, hnd⟩ : ∃ nd, g.get? n = some nd := by
    cases hg : g.get? n with
    | none => exact absurd (List.get?_eq_none.mp hg) (by omega)
    | some nd => exact ⟨nd, rfl⟩
  unfold setGrad gradOf
  rw [hnd]
  rw [List.get?_set_eq, hnd]
  rfl

lemma dataOf_addGrad (g : List Node) (n : Nat) (x : F) (m : Nat) :
    dataOf (addGrad g n x) m = dataOf g m := by
  unfold addGrad
  cases hg : g.get? n with
  | none => rfl
  | some nd =>
    unfold dataOf
    by_cases h : n = m
    · subst h
      rw [List.get?_set_eq, hg]
      simp [hg]
    · rw [List.get?_set_ne _ _ h]

lemma childrenOf_addGrad (g : List Node) (n : Nat) (x : F) (m : Nat) :
    childrenOf (addGrad g n x) m = childrenOf g m := by
  unfold addGrad
  cases hg : g.get? n with
  | none => rfl
  | some nd =>
    unfold childrenOf
    by_cases h : n = m
    · subst h
      rw [List.get?_set_eq, hg]
      simp [hg]
    · rw [List.get?_set_ne _ _ h]

lemma get?_addGrad_ne (g : List Node) (n : Nat) (x : F) (m : Nat) (h : n ≠ m) :
    (addGrad g n x).get? m = g.get? m := by
  unfold addGrad
  cases hg : g.get? n with
  | none => rfl
  | some nd => rw [List.get?_set_ne _ _ h]

lemma gradOf_addGrad_ne (g : List Node) (n : Nat) (x : F) (m : Nat) (h : n ≠ m) :
    gradOf (addGrad g n x) m = gradOf g m := by
  unfold gradOf
  rw [get?_addGrad_ne g n x m h]

lemma gradOf_addGrad_self (g : List Node) (n : Nat) (x : F) (h : n < g.length) :
    gradOf (addGrad g n x) n = addF (gradOf g n) x := by
  obtain ⟨nd, hnd⟩ : ∃ nd, g.get? n = some nd := by
    cases hg : g.get? n with
    | none => exact absurd (List.get?_eq_none.mp hg) (by omega)
    | some nd => exact ⟨nd, rfl⟩
  unfold addGrad gradOf
  rw [hnd]
  rw [List.get?_set_eq, hnd]
  simp [hnd]

/-! ## backStep only accumulates into the operands of the stepped node -/

lemma backStep_dataOf (T : Transcend) (g : List Node) (n m : Nat) :
    dataOf (backStep T g n) m = dataOf g m := by
  unfold backStep
  split
  · rfl
  · split <;> simp [apply_ite (fun g2 => dataOf g2 m), dataOf_addGrad]

lemma backStep_childrenOf (T : Transcend) (g : List Node) (n m : Nat) :
    childrenOf (backStep T g n) m = childrenOf g m := by
  unfold backStep
  split
  · rfl
  · split <;> simp [apply_ite (fun g2 => childrenOf g2 m), childrenOf_addGrad]

lemma backStep_get?_frame (T : Transcend) (g : List Node) (n x : Nat)
    (hx : x ∉ childrenOf g n) : (backStep T g n).get? x = g.get? x := by
  have hch : ∀ nd, g.get? n = some nd → ∀ c ∈ nd.children, c ≠ x := by
    intro nd hnd c hc
    intro h
    subst h
    exact hx (by unfold childrenOf; rw [hnd]; exact hc)
  unfold backStep
  split
  · rfl
  · rename_i nd hnd
    have hc := hch nd hnd
    split
    all_goals
      first
        | rfl
        | (rename_i a b hop hab
           have h1 : ∀ (gg : List Node) (w : F), (addGrad gg a w)[x]? = gg[x]? :=
             fun gg w => by
               simpa [List.get?_eq_getElem?] using
                 get?_addGrad_ne gg a w x (hc a (by rw [hab]; simp))
           have h2 : ∀ (gg : List Node) (w : F), (addGrad gg b w)[x]? = gg[x]? :=
             fun gg w => by
               simpa [List.get?_eq_getElem?] using
                 get?_addGrad_ne gg b w x (hc b (by rw [hab]; simp))
           simp [apply_ite (fun g2 : List Node => g2[x]?), h1, h2])
        | (rename_i a hop hab
           have h1 : ∀ (gg : List Node) (w : F), (addGrad gg a w)[x]? = gg[x]? :=
             fun gg w => by
               simpa [List.get?_eq_getElem?] using
                 get?_addGrad_ne gg a w x (hc a (by rw [hab]; simp))
           simp [apply_ite (fun g2 : List Node => g2[x]?), h1])

/-! ## Frame properties of the reverse pass -/

lemma backPass_frame (T : Transcend) (x : Nat) :
    ∀ (order : List Nat) (st : List Node × List Nat),
      (∀ n ∈ order, x ∉ childrenOf st.1 n) →
      (backPass T order st).1.get? x = st.1.get? x ∧
      ∀ m, childrenOf (backPass T order st).1 m = childrenOf st.1 m := by
  intro order
  induction order with
  | nil => intro st h; exact ⟨rfl, fun m => rfl⟩
  | cons n rest ih =>
    intro st h
    show (backPass T (n :: rest) st).1.get? x = st.1.get? x ∧ _
    rw [backPass]
    by_cases hp : n ∈ st.2
    · rw [if_pos hp]
      exact ih st (fun k hk => h k (by simp [hk]))
    · rw [if_neg hp]
      have hx : x ∉ childrenOf st.1 n := h n (by simp)
      have hrec := ih (backStep T st.1 n, n :: st.2)
        (fun k hk => by
          show x ∉ childrenOf (backStep T st.1 n) k
          rw [backStep_childrenOf]
          exact h k (by simp [hk]))
      refine ⟨?_, ?_⟩
      · rw [hrec.1]
        exact backStep_get?_frame T st.1 n x hx
      · intro m
        rw [hrec.2 m]
        exact backStep_childrenOf T st.1 n m

lemma WF_of_childrenOf_eq {g g2 : List Node}
    (h : ∀ m, childrenOf g2 m = childrenOf g m) (hwf : WF g) : WF g2 := by
  intro n c hc
  rw [h] at hc
  exact hwf n c hc

/-- Core of the frame claim: Backward never touches a node that is not
reachable from the root. -/
lemma Backward_frame (T : Transcend) (g : List Node) (root x : Nat)
    (hwf : WF g) (hx : ¬ Reaches g root x) :
    (Backward T g root).get? x = g.get? x := by
  have hxroot : x ≠ root := by
    intro h
    subst h
    exact hx (Reaches.refl x)
  set g1 := setGrad g root (F.fin 1) with hg1
  have hch1 : ∀ m, childrenOf g1 m = childrenOf g m :=
    fun m => childrenOf_setGrad g root (F.fin 1) m
  have hwf1 : WF g1 := WF_of_childrenOf_eq hch1 hwf
  have hspec := topoOrder_spec g1 root hwf1
  have hhyp : ∀ n ∈ (topoOrder g1 root).reverse, x ∉ childrenOf g1 n := by
    intro n hn hmem
    have hreach : Reaches g1 root n := (hspec.2.1 n).mp (List.mem_reverse.mp hn)
    have : Reaches g1 root x := hreach.child hmem
    exact hx (this.congr (fun m => (hch1 m).symm))
  have hfold := backPass_frame T x (topoOrder g1 root).reverse (g1, []) hhyp
  show (backPass T (topoOrder g1 root).reverse (g1, [])).1.get? x = g.get? x
  rw [hfold.1]
  exact get?_setGrad_ne g root (F.fin 1) x (fun h => hxroot h.symm)

/-- Core of the root-gradient claim: after Backward the root accumulator is
exactly 1, whatever it held before, because no closure of a reachable node
ever writes into the root. -/
lemma Backward_root_grad (T : Transcend) (g : List Node) (root : Nat)
    (hwf : WF g) (hroot : root < g.length) :
    gradOf (Backward T g root) root = F.fin 1 := by
  set g1 := setGrad g root (F.fin 1) with hg1
  have hch1 : ∀ m, childrenOf g1 m = childrenOf g m :=
    fun m => childrenOf_setGrad g root (F.fin 1) m
  have hwf1 : WF g1 := WF_of_childrenOf_eq hch1 hwf
  have hspec := topoOrder_spec g1 root hwf1
  have hhyp : ∀ n ∈ (topoOrder g1 root).reverse, root ∉ childrenOf g1 n := by
    intro n hn hmem
    have hreach : Reaches g1 root n := (hspec.2.1 n).mp (List.mem_reverse.mp hn)
    have hle : n ≤ root := hreach.le hwf1
    have : root < n := hwf1 n root hmem
    omega
  have hfold := backPass_frame T root (topoOrder g1 root).reverse (g1, []) hhyp
  show gradOf (backPass T (topoOrder g1 root).reverse (g1, [])).1 root = F.fin 1
  unfold gradOf
  rw [hfold.1]
  have := gradOf_setGrad_self g root (F.fin 1) hroot
  unfold gradOf at this
  exact this

lemma length_setGrad (g : List Node) (n : Nat) (x : F) :
    (setGrad g n x).length = g.length := by
  unfold setGrad
  cases hg : g.get? n with
  | none => rfl
  | some nd => exact List.length_set g n _

lemma length_addGrad (g : List Node) (n : Nat) (x : F) :
    (addGrad g n x).length = g.length := by
  unfold addGrad
  cases hg : g.get? n with
  | none => rfl
  | some nd => exact List.length_set g n _

lemma backStep_length (T : Transcend) (g : List Node) (n : Nat) :
    (backStep T g n).length = g.length := by
  unfold backStep
  split
  · rfl
  · split <;> simp [apply_ite (fun g2 : List Node => g2.length), length_addGrad]

lemma backPass_childrenOf (T : Transcend) :
    ∀ (order : List Nat) (st : List Node × List Nat) (m : Nat),
      childrenOf (backPass T order st).1 m = childrenOf st.1 m := by
  intro order
  induction order with
  | nil => intro st m; rfl
  | cons n rest ih =>
    intro st m
    show childrenOf (backPass T (n :: rest) st).1 m = _
    rw [backPass]
    by_cases hp : n ∈ st.2
    · rw [if_pos hp]; exact ih st m
    · rw [if_neg hp]
      rw [ih (backStep T st.1 n, n :: st.2) m]
      exact backStep_childrenOf T st.1 n m

lemma backPass_length (T : Transcend) :
    ∀ (order : List Nat) (st : List Node × List Nat),
      (backPass T order st).1.length = st.1.length := by
  intro order
  induction order with
  | nil => intro st; rfl
  | cons n rest ih =>
    intro st
    show (backPass T (n :: rest) st).1.length = _
    rw [backPass]
    by_cases hp : n ∈ st.2
    · rw [if_pos hp]; exact ih st
    · rw [if_neg hp]
      rw [ih (backStep T st.1 n, n :: st.2)]
      exact backStep_length T st.1 n

lemma Backward_childrenOf (T : Transcend) (g : List Node) (v m : Nat) :
    childrenOf (Backward T g v) m = childrenOf g m := by
  show childrenOf (backPass T _ _).1 m = _
  rw [backPass_childrenOf]
  exact childrenOf_setGrad g v (F.fin 1) m

lemma Backward_length (T : Transcend) (g : List Node) (v : Nat) :
    (Backward T g v).length = g.length := by
  show (backPass T _ _).1.length = _
  rw [backPass_length]
  exact length_setGrad g v (F.fin 1)

/-! ## Concrete scenarios from the test suite -/

/-- A small example arena: two leaves and their sum (c = a + b). -/
def exHeap : List Node :=
  (Add (NewValue (NewValue [] (F.fin 3)).1 (F.fin 4)).1 0 1).1

/-- The sanity-check scenario of the source test suite: leaves a = -4 and
b = 2, then z = 2a + 2 + a, q = relu(z) + z*a, h = relu(z*z),
y = (h + q) + q*a, allocated in source evaluation order. -/
def sanityA : List Node × Nat := NewValue [] (F.fin (-4))
def sanityB : List Node × Nat := NewValue sanityA.1 (F.fin 2)
def sanityZ1 : List Node × Nat := MulScalar sanityB.1 sanityA.2 (F.fin 2)
def sanityZ2 : List Node × Nat := AddScalar sanityZ1.1 sanityZ1.2 (F.fin 2)
def sanityZ : List Node × Nat := Add sanityZ2.1 sanityZ2.2 sanityA.2
def sanityQ1 : List Node × Nat := ReLU sanityZ.1 sanityZ.2
def sanityQ2 : List Node × Nat := Multiply sanityQ1.1 sanityZ.2 sanityA.2
def sanityQ : List Node × Nat := Add sanityQ2.1 sanityQ1.2 sanityQ2.2
def sanityH1 : List Node × Nat := Multiply sanityQ.1 sanityZ.2 sanityZ.2
def sanityH : List Node × Nat := ReLU sanityH1.1 sanityH1.2
def sanityY1 : List Node × Nat := Add sanityH.1 sanityH.2 sanityQ.2
def sanityY2 : List Node × Nat := Multiply sanityY1.1 sanityQ.2 sanityA.2
def sanityY : List Node × Nat := Add sanityY2.1 sanityY1.2 sanityY2.2

/-- The sanity-check arena after differentiating y. -/
def sanityBack (T : Transcend) : List Node := Backward T sanityY.1 sanityY.2

/-- A depth-two chain for the repeated-differentiation analysis:
d = (a + b) + x with leaves a, b, x. -/
def twiceA : List Node × Nat := NewValue [] (F.fin 5)
def twiceB : List Node × Nat := NewValue twiceA.1 (F.fin 6)
def twiceC : List Node × Nat := Add twiceB.1 twiceA.2 twiceB.2
def twiceX : List Node × Nat := NewValue twiceC.1 (F.fin 7)
def twiceD : List Node × Nat := Add twiceX.1 twiceC.2 twiceX.2

/-- The depth-two arena after one differentiation of the root. -/
def twiceOnce (T : Transcend) : List Node := Backward T twiceD.1 twiceD.2

/-- The depth-two arena after two differentiations of the root with no
reset in between. -/
def twiceAgain (T : Transcend) : List Node := Backward T (twiceOnce T) twiceD.2

/-- The sanity-check arena after the full reverse pass, written out
explicitly (the staging below verifies each executor step by kernel
evaluation). -/
def sanityFinal : List Node :=
  [⟨F.fin (-4), F.fin (46), [], Op.leaf⟩, ⟨F.fin (2), F.fin (0), [], Op.leaf⟩, ⟨F.fin (2), F.fin (32), [], Op.leaf⟩, ⟨F.fin (-8), F.fin (-8), [0, 2], Op.mul⟩, ⟨F.fin (-6), F.fin (-8), [3], Op.addScalar⟩, ⟨F.fin (-10), F.fin (-8), [4, 0], Op.add⟩, ⟨F.fin (0), F.fin (-3), [5], Op.relu⟩, ⟨F.fin (40), F.fin (-3), [5, 0], Op.mul⟩, ⟨F.fin (40), F.fin (-3), [6, 7], Op.add⟩, ⟨F.fin (100), F.fin (1), [5, 5], Op.mul⟩, ⟨F.fin (100), F.fin (1), [9], Op.relu⟩, ⟨F.fin (140), F.fin (1), [10, 8], Op.add⟩, ⟨F.fin (-160), F.fin (1), [8, 0], Op.mul⟩, ⟨F.fin (-20), F.fin (1), [11, 12], Op.add⟩]

lemma backPass_cons_not_mem (T : Transcend) (n : Nat) (rest proc : List Nat)
    (g : List Node) (h : n ∉ proc) :
    backPass T (n :: rest) (g, proc) = backPass T rest (backStep T g n, n :: proc) := by
  rw [backPass]
  exact if_neg h

lemma sanityBack_eval (T : Transcend) : sanityBack T = sanityFinal := by
  have h0 : sanityY.1 = ([⟨F.fin (-4), F.fin (0), [], Op.leaf⟩, ⟨F.fin (2), F.fin (0), [], Op.leaf⟩, ⟨F.fin (2), F.fin (0), [], Op.leaf⟩, ⟨F.fin (-8), F.fin (0), [0, 2], Op.mul⟩, ⟨F.fin (-6), F.fin (0), [3], Op.addScalar⟩, ⟨F.fin (-10), F.fin (0), [4, 0], Op.add⟩, ⟨F.fin (0), F.fin (0), [5], Op.relu⟩, ⟨F.fin (40), F.fin (0), [5, 0], Op.mul⟩, ⟨F.fin (40), F.fin (0), [6, 7], Op.add⟩, ⟨F.fin (100), F.fin (0), [5, 5], Op.mul⟩, ⟨F.fin (100), F.fin (0), [9], Op.relu⟩, ⟨F.fin (140), F.fin (0), [10, 8], Op.add⟩, ⟨F.fin (-160), F.fin (0), [8, 0], Op.mul⟩, ⟨F.fin (-20), F.fin (0), [11, 12], Op.add⟩] : List Node) := by with_unfolding_all rfl
  have h1 : setGrad ([⟨F.fin (-4), F.fin (0), [], Op.leaf⟩, ⟨F.fin (2), F.fin (0), [], Op.leaf⟩, ⟨F.fin (2), F.fin (0), [], Op.leaf⟩, ⟨F.fin (-8), F.fin (0), [0, 2], Op.mul⟩, ⟨F.fin (-6), F.fin (0), [3], Op.addScalar⟩, ⟨F.fin (-10), F.fin (0), [4, 0], Op.add⟩, ⟨F.fin (0), F.fin (0), [5], Op.relu⟩, ⟨F.fin (40), F.fin (0), [5, 0], Op.mul⟩, ⟨F.fin (40), F.fin (0), [6, 7], Op.add⟩, ⟨F.fin (100), F.fin (0), [5, 5], Op.mul⟩, ⟨F.fin (100), F.fin (0), [9], Op.relu⟩, ⟨F.fin (140), F.fin (0), [10, 8], Op.add⟩, ⟨F.fin (-160), F.fin (0), [8, 0], Op.mul⟩, ⟨F.fin (-20), F.fin (0), [11, 12], Op.add⟩] : List Node) 13 (F.fin 1) = ([⟨F.fin (-4), F.fin (0), [], Op.leaf⟩, ⟨F.fin (2), F.fin (0), [], Op.leaf⟩, ⟨F.fin (2), F.fin (0), [], Op.leaf⟩, ⟨F.fin (-8), F.fin (0), [0, 2], Op.mul⟩, ⟨F.fin (-6), F.fin (0), [3], Op.addScalar⟩, ⟨F.fin (-10), F.fin (0), [4, 0], Op.add⟩, ⟨F.fin (0), F.fin (0), [5], Op.relu⟩, ⟨F.fin (40), F.fin (0), [5, 0], Op.mul⟩, ⟨F.fin (40), F.fin (0), [6, 7], Op.add⟩, ⟨F.fin (100), F.fin (0), [5, 5], Op.mul⟩, ⟨F.fin (100), F.fin (0), [9], Op.relu⟩, ⟨F.fin (140), F.fin (0), [10, 8], Op.add⟩, ⟨F.fin (-160), F.fin (0), [8, 0], Op.mul⟩, ⟨F.fin (-20), F.fin (1), [11, 12], Op.add⟩] : List Node) := by with_unfolding_all rfl
  have ht : topoOrder ([⟨F.fin (-4), F.fin (0), [], Op.leaf⟩, ⟨F.fin (2), F.fin (0), [], Op.leaf⟩, ⟨F.fin (2), F.fin (0), [], Op.leaf⟩, ⟨F.fin (-8), F.fin (0), [0, 2], Op.mul⟩, ⟨F.fin (-6), F.fin (0), [3], Op.addScalar⟩, ⟨F.fin (-10), F.fin (0), [4, 0], Op.add⟩, ⟨F.fin (0), F.fin (0), [5], Op.relu⟩, ⟨F.fin (40), F.fin (0), [5, 0], Op.mul⟩, ⟨F.fin (40), F.fin (0), [6, 7], Op.add⟩, ⟨F.fin (100), F.fin (0), [5, 5], Op.mul⟩, ⟨F.fin (100), F.fin (0), [9], Op.relu⟩, ⟨F.fin (140), F.fin (0), [10, 8], Op.add⟩, ⟨F.fin (-160), F.fin (0), [8, 0], Op.mul⟩, ⟨F.fin (-20), F.fin (1), [11, 12], Op.add⟩] : List Node) 13 = [0, 2, 3, 4, 5, 9, 10, 6, 7, 8, 11, 12, 13] := by with_unfolding_all rfl
  have s1 : backStep T ([⟨F.fin (-4), F.fin (0), [], Op.leaf⟩, ⟨F.fin (2), F.fin (0), [], Op.leaf⟩, ⟨F.fin (2), F.fin (0), [], Op.leaf⟩, ⟨F.fin (-8), F.fin (0), [0, 2], Op.mul⟩, ⟨F.fin (-6), F.fin (0), [3], Op.addScalar⟩, ⟨F.fin (-10), F.fin (0), [4, 0], Op.add⟩, ⟨F.fin (0), F.fin (0), [5], Op.relu⟩, ⟨F.fin (40), F.fin (0), [5, 0], Op.mul⟩, ⟨F.fin (40), F.fin (0), [6, 7], Op.add⟩, ⟨F.fin (100), F.fin (0), [5, 5], Op.mul⟩, ⟨F.fin (100), F.fin (0), [9], Op.relu⟩, ⟨F.fin (140), F.fin (0), [10, 8], Op.add⟩, ⟨F.fin (-160), F.fin (0), [8, 0], Op.mul⟩, ⟨F.fin (-20), F.fin (1), [11, 12], Op.add⟩] : List Node) 13 = ([⟨F.fin (-4), F.fin (0), [], Op.leaf⟩, ⟨F.fin (2), F.fin (0), [], Op.leaf⟩, ⟨F.fin (2), F.fin (0), [], Op.leaf⟩, ⟨F.fin (-8), F.fin (0), [0, 2], Op.mul⟩, ⟨F.fin (-6), F.fin (0), [3], Op.addScalar⟩, ⟨F.fin (-10), F.fin (0), [4, 0], Op.add⟩, ⟨F.fin (0), F.fin (0), [5], Op.relu⟩, ⟨F.fin (40), F.fin (0), [5, 0], Op.mul⟩, ⟨F.fin (40), F.fin (0), [6, 7], Op.add⟩, ⟨F.fin (100), F.fin (0), [5, 5], Op.mul⟩, ⟨F.fin (100), F.fin (0), [9], Op.relu⟩, ⟨F.fin (140), F.fin (1), [10, 8], Op.add⟩, ⟨F.fin (-160), F.fin (1), [8, 0], Op.mul⟩, ⟨F.fin (-20), F.fin (1), [11, 12], Op.add⟩] : List Node) := by with_unfolding_all rfl
  have s2 : backStep T ([⟨F.fin (-4), F.fin (0), [], Op.leaf⟩, ⟨F.fin (2), F.fin (0), [], Op.leaf⟩, ⟨F.fin (2), F.fin (0), [], Op.leaf⟩, ⟨F.fin (-8), F.fin (0), [0, 2], Op.mul⟩, ⟨F.fin (-6), F.fin (0), [3], Op.addScalar⟩, ⟨F.fin (-10), F.fin (0), [4, 0], Op.add⟩, ⟨F.fin (0), F.fin (0), [5], Op.relu⟩, ⟨F.fin (40), F.fin (0), [5, 0], Op.mul⟩, ⟨F.fin (40), F.fin (0), [6, 7], Op.add⟩, ⟨F.fin (100), F.fin (0), [5, 5], Op.mul⟩, ⟨F.fin (100), F.fin (0), [9], Op.relu⟩, ⟨F.fin (140), F.fin (1), [10, 8], Op.add⟩, ⟨F.fin (-160), F.fin (1), [8, 0], Op.mul⟩, ⟨F.fin (-20), F.fin (1), [11, 12], Op.add⟩] : List Node) 12 = ([⟨F.fin (-4), F.fin (40), [], Op.leaf⟩, ⟨F.fin (2), F.fin (0), [], Op.leaf⟩, ⟨F.fin (2), F.fin (0), [], Op.leaf⟩, ⟨F.fin (-8), F.fin (0), [0, 2], Op.mul⟩, ⟨F.fin (-6), F.fin (0), [3], Op.addScalar⟩, ⟨F.fin (-10), F.fin (0), [4, 0], Op.add⟩, ⟨F.fin (0), F.fin (0), [5], Op.relu⟩, ⟨F.fin (40), F.fin (0), [5, 0], Op.mul⟩, ⟨F.fin (40), F.fin (-4), [6, 7], Op.add⟩, ⟨F.fin (100), F.fin (0), [5, 5], Op.mul⟩, ⟨F.fin (100), F.fin (0), [9], Op.relu⟩, ⟨F.fin (140), F.fin (1), [10, 8], Op.add⟩, ⟨F.fin (-160), F.fin (1), [8, 0], Op.mul⟩, ⟨F.fin (-20), F.fin (1), [11, 12], Op.add⟩] : List Node) := by with_unfolding_all rfl
  have s3 : backStep T ([⟨F.fin (-4), F.fin (40), [], Op.leaf⟩, ⟨F.fin (2), F.fin (0), [], Op.leaf⟩, ⟨F.fin (2), F.fin (0), [], Op.leaf⟩, ⟨F.fin (-8), F.fin (0), [0, 2], Op.mul⟩, ⟨F.fin (-6), F.fin (0), [3], Op.addScalar⟩, ⟨F.fin (-10), F.fin (0), [4, 0], Op.add⟩, ⟨F.fin (0), F.fin (0), [5], Op.relu⟩, ⟨F.fin (40), F.fin (0), [5, 0], Op.mul⟩, ⟨F.fin (40), F.fin (-4), [6, 7], Op.add⟩, ⟨F.fin (100), F.fin (0), [5, 5], Op.mul⟩, ⟨F.fin (100), F.fin (0), [9], Op.relu⟩, ⟨F.fin (140), F.fin (1), [10, 8], Op.add⟩, ⟨F.fin (-160), F.fin (1), [8, 0], Op.mul⟩, ⟨F.fin (-20), F.fin (1), [11, 12], Op.add⟩] : List Node) 11 = ([⟨F.fin (-4), F.fin (40), [], Op.leaf⟩, ⟨F.fin (2), F.fin (0), [], Op.leaf⟩, ⟨F.fin (2), F.fin (0), [], Op.leaf⟩, ⟨F.fin (-8), F.fin (0), [0, 2], Op.mul⟩, ⟨F.fin (-6), F.fin (0), [3], Op.addScalar⟩, ⟨F.fin (-10), F.fin (0), [4, 0], Op.add⟩, ⟨F.fin (0), F.fin (0), [5], Op.relu⟩, ⟨F.fin (40), F.fin (0), [5, 0], Op.mul⟩, ⟨F.fin (40), F.fin (-3), [6, 7], Op.add⟩, ⟨F.fin (100), F.fin (0), [5, 5], Op.mul⟩, ⟨F.fin (100), F.fin (1), [9], Op.relu⟩, ⟨F.fin (140), F.fin (1), [10, 8], Op.add⟩, ⟨F.fin (-160), F.fin (1), [8, 0], Op.mul⟩, ⟨F.fin (-20), F.fin (1), [11, 12], Op.add⟩] : List Node) := by with_unfolding_all rfl
  have s4 : backStep T ([⟨F.fin (-4), F.fin (40), [], Op.leaf⟩, ⟨F.fin (2), F.fin (0), [], Op.leaf⟩, ⟨F.fin (2), F.fin (0), [], Op.leaf⟩, ⟨F.fin (-8), F.fin (0), [0, 2], Op.mul⟩, ⟨F.fin (-6), F.fin (0), [3], Op.addScalar⟩, ⟨F.fin (-10), F.fin (0), [4, 0], Op.add⟩, ⟨F.fin (0), F.fin (0), [5], Op.relu⟩, ⟨F.fin (40), F.fin (0), [5, 0], Op.mul⟩, ⟨F.fin (40), F.fin (-3), [6, 7], Op.add⟩, ⟨F.fin (100), F.fin (0), [5, 5], Op.mul⟩, ⟨F.fin (100), F.fin (1), [9], Op.relu⟩, ⟨F.fin (140), F.fin (1), [10, 8], Op.add⟩, ⟨F.fin (-160), F.fin (1), [8, 0], Op.mul⟩, ⟨F.fin (-20), F.fin (1), [11, 12], Op.add⟩] : List Node) 8 = ([⟨F.fin (-4), F.fin (40), [], Op.leaf⟩, ⟨F.fin (2), F.fin (0), [], Op.leaf⟩, ⟨F.fin (2), F.fin (0), [], Op.leaf⟩, ⟨F.fin (-8), F.fin (0), [0, 2], Op.mul⟩, ⟨F.fin (-6), F.fin (0), [3], Op.addScalar⟩, ⟨F.fin (-10), F.fin (0), [4, 0], Op.add⟩, ⟨F.fin (0), F.fin (-3), [5], Op.relu⟩, ⟨F.fin (40), F.fin (-3), [5, 0], Op.mul⟩, ⟨F.fin (40), F.fin (-3), [6, 7], Op.add⟩, ⟨F.fin (100), F.fin (0), [5, 5], Op.mul⟩, ⟨F.fin (100), F.fin (1), [9], Op.relu⟩, ⟨F.fin (140), F.fin (1), [10, 8], Op.add⟩, ⟨F.fin (-160), F.fin (1), [8, 0], Op.mul⟩, ⟨F.fin (-20), F.fin (1), [11, 12], Op.add⟩] : List Node) := by with_unfolding_all rfl
  have s5 : backStep T ([⟨F.fin (-4), F.fin (40), [], Op.leaf⟩, ⟨F.fin (2), F.fin (0), [], Op.leaf⟩, ⟨F.fin (2), F.fin (0), [], Op.leaf⟩, ⟨F.fin (-8), F.fin (0), [0, 2], Op.mul⟩, ⟨F.fin (-6), F.fin (0), [3], Op.addScalar⟩, ⟨F.fin (-10), F.fin (0), [4, 0], Op.add⟩, ⟨F.fin (0), F.fin (-3), [5], Op.relu⟩, ⟨F.fin (40), F.fin (-3), [5, 0], Op.mul⟩, ⟨F.fin (40), F.fin (-3), [6, 7], Op.add⟩, ⟨F.fin (100), F.fin (0), [5, 5], Op.mul⟩, ⟨F.fin (100), F.fin (1), [9], Op.relu⟩, ⟨F.fin (140), F.fin (1), [10, 8], Op.add⟩, ⟨F.fin (-160), F.fin (1), [8, 0], Op.mul⟩, ⟨F.fin (-20), F.fin (1), [11, 12], Op.add⟩] : List Node) 7 = ([⟨F.fin (-4), F.fin (70), [], Op.leaf⟩, ⟨F.fin (2), F.fin (0), [], Op.leaf⟩, ⟨F.fin (2), F.fin (0), [], Op.leaf⟩, ⟨F.fin (-8), F.fin (0), [0, 2], Op.mul⟩, ⟨F.fin (-6), F.fin (0), [3], Op.addScalar⟩, ⟨F.fin (-10), F.fin (12), [4, 0], Op.add⟩, ⟨F.fin (0), F.fin (-3), [5], Op.relu⟩, ⟨F.fin (40), F.fin (-3), [5, 0], Op.mul⟩, ⟨F.fin (40), F.fin (-3), [6, 7], Op.add⟩, ⟨F.fin (100), F.fin (0), [5, 5], Op.mul⟩, ⟨F.fin (100), F.fin (1), [9], Op.relu⟩, ⟨F.fin (140), F.fin (1), [10, 8], Op.add⟩, ⟨F.fin (-160), F.fin (1), [8, 0], Op.mul⟩, ⟨F.fin (-20), F.fin (1), [11, 12], Op.add⟩] : List Node) := by with_unfolding_all rfl
  have s6 : backStep T ([⟨F.fin (-4), F.fin (70), [], Op.leaf⟩, ⟨F.fin (2), F.fin (0), [], Op.leaf⟩, ⟨F.fin (2), F.fin (0), [], Op.leaf⟩, ⟨F.fin (-8), F.fin (0), [0, 2], Op.mul⟩, ⟨F.fin (-6), F.fin (0), [3], Op.addScalar⟩, ⟨F.fin (-10), F.fin (12), [4, 0], Op.add⟩, ⟨F.fin (0), F.fin (-3), [5], Op.relu⟩, ⟨F.fin (40), F.fin (-3), [5, 0], Op.mul⟩, ⟨F.fin (40), F.fin (-3), [6, 7], Op.add⟩, ⟨F.fin (100), F.fin (0), [5, 5], Op.mul⟩, ⟨F.fin (100), F.fin (1), [9], Op.relu⟩, ⟨F.fin (140), F.fin (1), [10, 8], Op.add⟩, ⟨F.fin (-160), F.fin (1), [8, 0], Op.mul⟩, ⟨F.fin (-20), F.fin (1), [11, 12], Op.add⟩] : List Node) 6 = ([⟨F.fin (-4), F.fin (70), [], Op.leaf⟩, ⟨F.fin (2), F.fin (0), [], Op.leaf⟩, ⟨F.fin (2), F.fin (0), [], Op.leaf⟩, ⟨F.fin (-8), F.fin (0), [0, 2], Op.mul⟩, ⟨F.fin (-6), F.fin (0), [3], Op.addScalar⟩, ⟨F.fin (-10), F.fin (12), [4, 0], Op.add⟩, ⟨F.fin (0), F.fin (-3), [5], Op.relu⟩, ⟨F.fin (40), F.fin (-3), [5, 0], Op.mul⟩, ⟨F.fin (40), F.fin (-3), [6, 7], Op.add⟩, ⟨F.fin (100), F.fin (0), [5, 5], Op.mul⟩, ⟨F.fin (100), F.fin (1), [9], Op.relu⟩, ⟨F.fin (140), F.fin (1), [10, 8], Op.add⟩, ⟨F.fin (-160), F.fin (1), [8, 0], Op.mul⟩, ⟨F.fin (-20), F.fin (1), [11, 12], Op.add⟩] : List Node) := by with_unfolding_all rfl
  have s7 : backStep T ([⟨F.fin (-4), F.fin (70), [], Op.leaf⟩, ⟨F.fin (2), F.fin (0), [], Op.leaf⟩, ⟨F.fin (2), F.fin (0), [], Op.leaf⟩, ⟨F.fin (-8), F.fin (0), [0, 2], Op.mul⟩, ⟨F.fin (-6), F.fin (0), [3], Op.addScalar⟩, ⟨F.fin (-10), F.fin (12), [4, 0], Op.add⟩, ⟨F.fin (0), F.fin (-3), [5], Op.relu⟩, ⟨F.fin (40), F.fin (-3), [5, 0], Op.mul⟩, ⟨F.fin (40), F.fin (-3), [6, 7], Op.add⟩, ⟨F.fin (100), F.fin (0), [5, 5], Op.mul⟩, ⟨F.fin (100), F.fin (1), [9], Op.relu⟩, ⟨F.fin (140), F.fin (1), [10, 8], Op.add⟩, ⟨F.fin (-160), F.fin (1), [8, 0], Op.mul⟩, ⟨F.fin (-20), F.fin (1), [11, 12], Op.add⟩] : List Node) 10 = ([⟨F.fin (-4), F.fin (70), [], Op.leaf⟩, ⟨F.fin (2), F.fin (0), [], Op.leaf⟩, ⟨F.fin (2), F.fin (0), [], Op.leaf⟩, ⟨F.fin (-8), F.fin (0), [0, 2], Op.mul⟩, ⟨F.fin (-6), F.fin (0), [3], Op.addScalar⟩, ⟨F.fin (-10), F.fin (12), [4, 0], Op.add⟩, ⟨F.fin (0), F.fin (-3), [5], Op.relu⟩, ⟨F.fin (40), F.fin (-3), [5, 0], Op.mul⟩, ⟨F.fin (40), F.fin (-3), [6, 7], Op.add⟩, ⟨F.fin (100), F.fin (1), [5, 5], Op.mul⟩, ⟨F.fin (100), F.fin (1), [9], Op.relu⟩, ⟨F.fin (140), F.fin (1), [10, 8], Op.add⟩, ⟨F.fin (-160), F.fin (1), [8, 0], Op.mul⟩, ⟨F.fin (-20), F.fin (1), [11, 12], Op.add⟩] : List Node) := by with_unfolding_all rfl
  have s8 : backStep T ([⟨F.fin (-4), F.fin (70), [], Op.leaf⟩, ⟨F.fin (2), F.fin (0), [], Op.leaf⟩, ⟨F.fin (2), F.fin (0), [], Op.leaf⟩, ⟨F.fin (-8), F.fin (0), [0, 2], Op.mul⟩, ⟨F.fin (-6), F.fin (0), [3], Op.addScalar⟩, ⟨F.fin (-10), F.fin (12), [4, 0], Op.add⟩, ⟨F.fin (0), F.fin (-3), [5], Op.relu⟩, ⟨F.fin (40), F.fin (-3), [5, 0], Op.mul⟩, ⟨F.fin (40), F.fin (-3), [6, 7], Op.add⟩, ⟨F.fin (100), F.fin (1), [5, 5], Op.mul⟩, ⟨F.fin (100), F.fin (1), [9], Op.relu⟩, ⟨F.fin (140), F.fin (1), [10, 8], Op.add⟩, ⟨F.fin (-160), F.fin (1), [8, 0], Op.mul⟩, ⟨F.fin (-20), F.fin (1), [11, 12], Op.add⟩] : List Node) 9 = ([⟨F.fin (-4), F.fin (70), [], Op.leaf⟩, ⟨F.fin (2), F.fin (0), [], Op.leaf⟩, ⟨F.fin (2), F.fin (0), [], Op.leaf⟩, ⟨F.fin (-8), F.fin (0), [0, 2], Op.mul⟩, ⟨F.fin (-6), F.fin (0), [3], Op.addScalar⟩, ⟨F.fin (-10), F.fin (-8), [4, 0], Op.add⟩, ⟨F.fin (0), F.fin (-3), [5], Op.relu⟩, ⟨F.fin (40), F.fin (-3), [5, 0], Op.mul⟩, ⟨F.fin (40), F.fin (-3), [6, 7], Op.add⟩, ⟨F.fin (100), F.fin (1), [5, 5], Op.mul⟩, ⟨F.fin (100), F.fin (1), [9], Op.relu⟩, ⟨F.fin (140), F.fin (1), [10, 8], Op.add⟩, ⟨F.fin (-160), F.fin (1), [8, 0], Op.mul⟩, ⟨F.fin (-20), F.fin (1), [11, 12], Op.add⟩] : List Node) := by with_unfolding_all rfl
  have s9 : backStep T ([⟨F.fin (-4), F.fin (70), [], Op.leaf⟩, ⟨F.fin (2), F.fin (0), [], Op.leaf⟩, ⟨F.fin (2), F.fin (0), [], Op.leaf⟩, ⟨F.fin (-8), F.fin (0), [0, 2], Op.mul⟩, ⟨F.fin (-6), F.fin (0), [3], Op.addScalar⟩, ⟨F.fin (-10), F.fin (-8), [4, 0], Op.add⟩, ⟨F.fin (0), F.fin (-3), [5], Op.relu⟩, ⟨F.fin (40), F.fin (-3), [5, 0], Op.mul⟩, ⟨F.fin (40), F.fin (-3), [6, 7], Op.add⟩, ⟨F.fin (100), F.fin (1), [5, 5], Op.mul⟩, ⟨F.fin (100), F.fin (1), [9], Op.relu⟩, ⟨F.fin (140), F.fin (1), [10, 8], Op.add⟩, ⟨F.fin (-160), F.fin (1), [8, 0], Op.mul⟩, ⟨F.fin (-20), F.fin (1), [11, 12], Op.add⟩] : List Node) 5 = ([⟨F.fin (-4), F.fin (62), [], Op.leaf⟩, ⟨F.fin (2), F.fin (0), [], Op.leaf⟩, ⟨F.fin (2), F.fin (0), [], Op.leaf⟩, ⟨F.fin (-8), F.fin (0), [0, 2], Op.mul⟩, ⟨F.fin (-6), F.fin (-8), [3], Op.addScalar⟩, ⟨F.fin (-10), F.fin (-8), [4, 0], Op.add⟩, ⟨F.fin (0), F.fin (-3), [5], Op.relu⟩, ⟨F.fin (40), F.fin (-3), [5, 0], Op.mul⟩, ⟨F.fin (40), F.fin (-3), [6, 7], Op.add⟩, ⟨F.fin (100), F.fin (1), [5, 5], Op.mul⟩, ⟨F.fin (100), F.fin (1), [9], Op.relu⟩, ⟨F.fin (140), F.fin (1), [10, 8], Op.add⟩, ⟨F.fin (-160), F.fin (1), [8, 0], Op.mul⟩, ⟨F.fin (-20), F.fin (1), [11, 12], Op.add⟩] : List Node) := by with_unfolding_all rfl
  have s10 : backStep T ([⟨F.fin (-4), F.fin (62), [], Op.leaf⟩, ⟨F.fin (2), F.fin (0), [], Op.leaf⟩, ⟨F.fin (2), F.fin (0), [], Op.leaf⟩, ⟨F.fin (-8), F.fin (0), [0, 2], Op.mul⟩, ⟨F.fin (-6), F.fin (-8), [3], Op.addScalar⟩, ⟨F.fin (-10), F.fin (-8), [4, 0], Op.add⟩, ⟨F.fin (0), F.fin (-3), [5], Op.relu⟩, ⟨F.fin (40), F.fin (-3), [5, 0], Op.mul⟩, ⟨F.fin (40), F.fin (-3), [6, 7], Op.add⟩, ⟨F.fin (100), F.fin (1), [5, 5], Op.mul⟩, ⟨F.fin (100), F.fin (1), [9], Op.relu⟩, ⟨F.fin (140), F.fin (1), [10, 8], Op.add⟩, ⟨F.fin (-160), F.fin (1), [8, 0], Op.mul⟩, ⟨F.fin (-20), F.fin (1), [11, 12], Op.add⟩] : List Node) 4 = ([⟨F.fin (-4), F.fin (62), [], Op.leaf⟩, ⟨F.fin (2), F.fin (0), [], Op.leaf⟩, ⟨F.fin (2), F.fin (0), [], Op.leaf⟩, ⟨F.fin (-8), F.fin (-8), [0, 2], Op.mul⟩, ⟨F.fin (-6), F.fin (-8), [3], Op.addScalar⟩, ⟨F.fin (-10), F.fin (-8), [4, 0], Op.add⟩, ⟨F.fin (0), F.fin (-3), [5], Op.relu⟩, ⟨F.fin (40), F.fin (-3), [5, 0], Op.mul⟩, ⟨F.fin (40), F.fin (-3), [6, 7], Op.add⟩, ⟨F.fin (100), F.fin (1), [5, 5], Op.mul⟩, ⟨F.fin (100), F.fin (1), [9], Op.relu⟩, ⟨F.fin (140), F.fin (1), [10, 8], Op.add⟩, ⟨F.fin (-160), F.fin (1), [8, 0], Op.mul⟩, ⟨F.fin (-20), F.fin (1), [11, 12], Op.add⟩] : List Node) := by with_unfolding_all rfl
  have s11 : backStep T ([⟨F.fin (-4), F.fin (62), [], Op.leaf⟩, ⟨F.fin (2), F.fin (0), [], Op.leaf⟩, ⟨F.fin (2), F.fin (0), [], Op.leaf⟩, ⟨F.fin (-8), F.fin (-8), [0, 2], Op.mul⟩, ⟨F.fin (-6), F.fin (-8), [3], Op.addScalar⟩, ⟨F.fin (-10), F.fin (-8), [4, 0], Op.add⟩, ⟨F.fin (0), F.fin (-3), [5], Op.relu⟩, ⟨F.fin (40), F.fin (-3), [5, 0], Op.mul⟩, ⟨F.fin (40), F.fin (-3), [6, 7], Op.add⟩, ⟨F.fin (100), F.fin (1), [5, 5], Op.mul⟩, ⟨F.fin (100), F.fin (1), [9], Op.relu⟩, ⟨F.fin (140), F.fin (1), [10, 8], Op.add⟩, ⟨F.fin (-160), F.fin (1), [8, 0], Op.mul⟩, ⟨F.fin (-20), F.fin (1), [11, 12], Op.add⟩] : List Node) 3 = ([⟨F.fin (-4), F.fin (46), [], Op.leaf⟩, ⟨F.fin (2), F.fin (0), [], Op.leaf⟩, ⟨F.fin (2), F.fin (32), [], Op.leaf⟩, ⟨F.fin (-8), F.fin (-8), [0, 2], Op.mul⟩, ⟨F.fin (-6), F.fin (-8), [3], Op.addScalar⟩, ⟨F.fin (-10), F.fin (-8), [4, 0], Op.add⟩, ⟨F.fin (0), F.fin (-3), [5], Op.relu⟩, ⟨F.fin (40), F.fin (-3), [5, 0], Op.mul⟩, ⟨F.fin (40), F.fin (-3), [6, 7], Op.add⟩, ⟨F.fin (100), F.fin (1), [5, 5], Op.mul⟩, ⟨F.fin (100), F.fin (1), [9], Op.relu⟩, ⟨F.fin (140), F.fin (1), [10, 8], Op.add⟩, ⟨F.fin (-160), F.fin (1), [8, 0], Op.mul⟩, ⟨F.fin (-20), F.fin (1), [11, 12], Op.add⟩] : List Node) := by with_unfolding_all rfl
  have s12 : backStep T ([⟨F.fin (-4), F.fin (46), [], Op.leaf⟩, ⟨F.fin (2), F.fin (0), [], Op.leaf⟩, ⟨F.fin (2), F.fin (32), [], Op.leaf⟩, ⟨F.fin (-8), F.fin (-8), [0, 2], Op.mul⟩, ⟨F.fin (-6), F.fin (-8), [3], Op.addScalar⟩, ⟨F.fin (-10), F.fin (-8), [4, 0], Op.add⟩, ⟨F.fin (0), F.fin (-3), [5], Op.relu⟩, ⟨F.fin (40), F.fin (-3), [5, 0], Op.mul⟩, ⟨F.fin (40), F.fin (-3), [6, 7], Op.add⟩, ⟨F.fin (100), F.fin (1), [5, 5], Op.mul⟩, ⟨F.fin (100), F.fin (1), [9], Op.relu⟩, ⟨F.fin (140), F.fin (1), [10, 8], Op.add⟩, ⟨F.fin (-160), F.fin (1), [8, 0], Op.mul⟩, ⟨F.fin (-20), F.fin (1), [11, 12], Op.add⟩] : List Node) 2 = ([⟨F.fin (-4), F.fin (46), [], Op.leaf⟩, ⟨F.fin (2), F.fin (0), [], Op.leaf⟩, ⟨F.fin (2), F.fin (32), [], Op.leaf⟩, ⟨F.fin (-8), F.fin (-8), [0, 2], Op.mul⟩, ⟨F.fin (-6), F.fin (-8), [3], Op.addScalar⟩, ⟨F.fin (-10), F.fin (-8), [4, 0], Op.add⟩, ⟨F.fin (0), F.fin (-3), [5], Op.relu⟩, ⟨F.fin (40), F.fin (-3), [5, 0], Op.mul⟩, ⟨F.fin (40), F.fin (-3), [6, 7], Op.add⟩, ⟨F.fin (100), F.fin (1), [5, 5], Op.mul⟩, ⟨F.fin (100), F.fin (1), [9], Op.relu⟩, ⟨F.fin (140), F.fin (1), [10, 8], Op.add⟩, ⟨F.fin (-160), F.fin (1), [8, 0], Op.mul⟩, ⟨F.fin (-20), F.fin (1), [11, 12], Op.add⟩] : List Node) := by with_unfolding_all rfl
  have s13 : backStep T ([⟨F.fin (-4), F.fin (46), [], Op.leaf⟩, ⟨F.fin (2), F.fin (0), [], Op.leaf⟩, ⟨F.fin (2), F.fin (32), [], Op.leaf⟩, ⟨F.fin (-8), F.fin (-8), [0, 2], Op.mul⟩, ⟨F.fin (-6), F.fin (-8), [3], Op.addScalar⟩, ⟨F.fin (-10), F.fin (-8), [4, 0], Op.add⟩, ⟨F.fin (0), F.fin (-3), [5], Op.relu⟩, ⟨F.fin (40), F.fin (-3), [5, 0], Op.mul⟩, ⟨F.fin (40), F.fin (-3), [6, 7], Op.add⟩, ⟨F.fin (100), F.fin (1), [5, 5], Op.mul⟩, ⟨F.fin (100), F.fin (1), [9], Op.relu⟩, ⟨F.fin (140), F.fin (1), [10, 8], Op.add⟩, ⟨F.fin (-160), F.fin (1), [8, 0], Op.mul⟩, ⟨F.fin (-20), F.fin (1), [11, 12], Op.add⟩] : List Node) 0 = ([⟨F.fin (-4), F.fin (46), [], Op.leaf⟩, ⟨F.fin (2), F.fin (0), [], Op.leaf⟩, ⟨F.fin (2), F.fin (32), [], Op.leaf⟩, ⟨F.fin (-8), F.fin (-8), [0, 2], Op.mul⟩, ⟨F.fin (-6), F.fin (-8), [3], Op.addScalar⟩, ⟨F.fin (-10), F.fin (-8), [4, 0], Op.add⟩, ⟨F.fin (0), F.fin (-3), [5], Op.relu⟩, ⟨F.fin (40), F.fin (-3), [5, 0], Op.mul⟩, ⟨F.fin (40), F.fin (-3), [6, 7], Op.add⟩, ⟨F.fin (100), F.fin (1), [5, 5], Op.mul⟩, ⟨F.fin (100), F.fin (1), [9], Op.relu⟩, ⟨F.fin (140), F.fin (1), [10, 8], Op.add⟩, ⟨F.fin (-160), F.fin (1), [8, 0], Op.mul⟩, ⟨F.fin (-20), F.fin (1), [11, 12], Op.add⟩] : List Node) := by with_unfolding_all rfl
  show (backPass T (topoOrder (setGrad sanityY.1 13 (F.fin 1)) 13).reverse
      (setGrad sanityY.1 13 (F.fin 1), [])).1 = sanityFinal
  rw [h0, h1, ht]
  rw [show ([0, 2, 3, 4, 5, 9, 10, 6, 7, 8, 11, 12, 13] : List Nat).reverse = [13, 12, 11, 8, 7, 6, 10, 9, 5, 4, 3, 2, 0] from by rfl]
  rw [backPass_cons_not_mem T 13 _ _ _ (by decide), s1]
  rw [backPass_cons_not_mem T 12 _ _ _ (by decide), s2]
  rw [backPass_cons_not_mem T 11 _ _ _ (by decide), s3]
  rw [backPass_cons_not_mem T 8 _ _ _ (by decide), s4]
  rw [backPass_cons_not_mem T 7 _ _ _ (by decide), s5]
  rw [backPass_cons_not_mem T 6 _ _ _ (by decide), s6]
  rw [backPass_cons_not_mem T 10 _ _ _ (by decide), s7]
  rw [backPass_cons_not_mem T 9 _ _ _ (by decide), s8]
  rw [backPass_cons_not_mem T 5 _ _ _ (by decide), s9]
  rw [backPass_cons_not_mem T 4 _ _ _ (by decide), s10]
  rw [backPass_cons_not_mem T 3 _ _ _ (by decide), s11]
  rw [backPass_cons_not_mem T 2 _ _ _ (by decide), s12]
  rw [backPass_cons_not_mem T 0 _ _ _ (by decide), s13]
  rfl

/-- The two-node arena of c = add(a, a) for a leaf of value x. -/
lemma addSelfHeap (x : F) :
    (Add (NewValue [] x).1 (NewValue [] x).2 (NewValue [] x).2).1
      = [⟨x, F.fin 0, [], Op.leaf⟩, ⟨addF x x, F.fin 0, [0, 0], Op.add⟩] := by
  with_unfolding_all rfl

lemma addSelf_backward1 (T : Transcend) (x : F) :
    Backward T [⟨x, F.fin 0, [], Op.leaf⟩, ⟨addF x x, F.fin 0, [0, 0], Op.add⟩] 1
      = [⟨x, F.fin 2, [], Op.leaf⟩, ⟨addF x x, F.fin 1, [0, 0], Op.add⟩] := by
  with_unfolding_all rfl

lemma addSelf_backward2 (T : Transcend) (x : F) :
    Backward T [⟨x, F.fin 2, [], Op.leaf⟩, ⟨addF x x, F.fin 1, [0, 0], Op.add⟩] 1
      = [⟨x, F.fin 4, [], Op.leaf⟩, ⟨addF x x, F.fin 1, [0, 0], Op.add⟩] := by
  with_unfolding_all rfl

/-! ## Claim theorems -/

/-- C9.  The leaf constructor returns, for every raw scalar, a node whose
value is that scalar, whose gradient accumulator is 0, whose operand list
is empty, and whose tag is the leaf (no-op backward) tag; it sits at the
top of the arena. -/
theorem NewValue_post (g : List Node) (x : F) :
    (NewValue g x).1.get? (NewValue g x).2 =
      some { data := x, grad := F.fin 0, children := [], op := Op.leaf } ∧
    (NewValue g x).2 = g.length := by
  exact ⟨List.get?_concat_length g _, rfl⟩

/-- C2.  Sharing invariant: for a leaf a of any value, after c = add(a, a)
the call differentiate(c) leaves a.gradient = 2: both uses of a contribute
1 each, because accumulation is additive. -/
theorem add_sharing_gradient (T : Transcend) (x : F) :
    gradOf
      (Backward T (Add (NewValue [] x).1 (NewValue [] x).2 (NewValue [] x).2).1
        (Add (NewValue [] x).1 (NewValue [] x).2 (NewValue [] x).2).2)
      (NewValue [] x).2 = F.fin 2 := by
  rw [show (Add (NewValue [] x).1 (NewValue [] x).2 (NewValue [] x).2).2 = 1 from rfl,
    addSelfHeap x, addSelf_backward1 T x]
  with_unfolding_all rfl

/-- C6.  Topological-order postcondition: on a well-formed arena the order
built by the depth-first traversal is duplicate-free, contains exactly the
nodes reachable from the root, and lists every node strictly after all of
its operands. -/
theorem topo_order_postcondition (g : List Node) (root : Nat) (hwf : WF g) :
    (topoOrder g root).Nodup ∧
    (∀ x, x ∈ topoOrder g root ↔ Reaches g root x) ∧
    TopoOK g (topoOrder g root) :=
  topoOrder_spec g root hwf

/-- Witness for C6 on the concrete arena c = a + b rooted at c. -/
theorem topo_order_postcondition_witness :
    (topoOrder exHeap 2).Nodup ∧
    (∀ x, x ∈ topoOrder exHeap 2 ↔ Reaches exHeap 2 x) ∧
    TopoOK exHeap (topoOrder exHeap 2) :=
  topo_order_postcondition exHeap 2 (WF_of_wfb exHeap (by with_unfolding_all rfl))

/-- C7.  Frame condition: differentiate(root) leaves every node that is not
reachable from the root via the operand relation completely unchanged
(the whole node record - value, gradient, operands, tag - is equal). -/
theorem differentiate_frame (T : Transcend) (g : List Node) (root x : Nat)
    (hwf : WF g) (hx : ¬ Reaches g root x) :
    (Backward T g root).get? x = g.get? x :=
  Backward_frame T g root x hwf hx

/-- Witness for C7: leaf b is not reachable from leaf a in the arena
c = a + b, so differentiating at a leaves b untouched. -/
theorem differentiate_frame_witness :
    (Backward T0 exHeap 0).get? 1 = exHeap.get? 1 :=
  differentiate_frame T0 exHeap 0 1 (WF_of_wfb exHeap (by with_unfolding_all rfl))
    (fun h => absurd (h.le (WF_of_wfb exHeap (by with_unfolding_all rfl))) (by omega))

/-- C10.  Root reseed: immediately after differentiate(root) the root
gradient accumulator is exactly 1, whatever it held before, and the same
holds again after a repeated call on the same root. -/
theorem root_grad_reseed (T : Transcend) (g : List Node) (root : Nat)
    (hwf : WF g) (hroot : root < g.length) :
    gradOf (Backward T g root) root = F.fin 1 ∧
    gradOf (Backward T (Backward T g root) root) root = F.fin 1 := by
  have hwf2 : WF (Backward T g root) :=
    WF_of_childrenOf_eq (fun m => Backward_childrenOf T g root m) hwf
  have hlen2 : root < (Backward T g root).length := by
    rw [Backward_length]; exact hroot
  exact ⟨Backward_root_grad T g root hwf hroot,
    Backward_root_grad T (Backward T g root) root hwf2 hlen2⟩

/-- Witness for C10 on the concrete arena c = a + b rooted at c. -/
theorem root_grad_reseed_witness :
    gradOf (Backward T0 exHeap 2) 2 = F.fin 1 ∧
    gradOf (Backward T0 (Backward T0 exHeap 2) 2) 2 = F.fin 1 :=
  root_grad_reseed T0 exHeap 2 (WF_of_wfb exHeap (by with_unfolding_all rfl))
    (by with_unfolding_all decide)

/-- C1 (amended).  The sanity-check scenario: with leaves a = -4 and b = 2,
differentiate(y) leaves y.value = -20 exactly (not 3) and a.gradient = 46,
for every approximation table (no transcendental branch is exercised). -/
theorem sanity_check_values (T : Transcend) :
    dataOf (sanityBack T) sanityY.2 = F.fin (-20) ∧
    gradOf (sanityBack T) sanityA.2 = F.fin 46 := by
  rw [sanityBack_eval T]
  exact ⟨by with_unfolding_all rfl, by with_unfolding_all rfl⟩

/-- C1 (counterexample).  The claim as stated is false: differentiate(y)
does not produce y.value = 3; the forward value is -20. -/
theorem sanity_check_not_three :
    ¬ (dataOf (sanityBack T0) sanityY.2 = F.fin 3 ∧
        gradOf (sanityBack T0) sanityA.2 = F.fin 46) := by
  rintro ⟨h1, -⟩
  have h2 : dataOf (sanityBack T0) sanityY.2 = F.fin (-20) := by
    rw [sanityBack_eval T0]
    with_unfolding_all rfl
  rw [h2] at h1
  injection h1 with h3
  norm_num at h3

/-- C5 (counterexample).  Doubling fails two levels below the root: in
d = (a + b) + x, leaf a is reachable from the root and distinct from it,
one differentiation gives a.gradient = 1, but a second differentiation
without reset gives 3, not the doubled 2: the inner sum node propagates
with its own already-doubled gradient. -/
theorem double_backward_not_doubling :
    Reaches twiceD.1 twiceD.2 0 ∧
    twiceD.2 ≠ 0 ∧
    gradOf (twiceOnce T0) 0 = F.fin 1 ∧
    gradOf (twiceAgain T0) 0 = F.fin 3 ∧
    F.fin 3 ≠ mulF (F.fin 2) (F.fin 1) := by
  refine ⟨?_, by with_unfolding_all decide, by with_unfolding_all rfl,
    by with_unfolding_all rfl, ?_⟩
  · exact Reaches.step (c := 2) (by with_unfolding_all decide)
      (Reaches.step (c := 0) (by with_unfolding_all decide) (Reaches.refl 0))
  · intro h
    have h2 : mulF (F.fin 2) (F.fin 1) = F.fin 2 := by with_unfolding_all rfl
    rw [h2] at h
    injection h with h3
    norm_num at h3

/-- C5 (amended).  A second differentiate on the same root accumulates into
the existing gradients rather than recomputing them from zero; the exact
doubling only survives in special shapes such as the direct-sharing graph
c = add(a, a), where the second call yields a.gradient = 4, double the
single-call 2. -/
theorem double_backward_accumulates (T : Transcend) (x : F) :
    gradOf
      (Backward T
        (Backward T (Add (NewValue [] x).1 (NewValue [] x).2 (NewValue [] x).2).1
          (Add (NewValue [] x).1 (NewValue [] x).2 (NewValue [] x).2).2)
        (Add (NewValue [] x).1 (NewValue [] x).2 (NewValue [] x).2).2)
      (NewValue [] x).2 = F.fin 4 ∧
    gradOf
      (Backward T (Add (NewValue [] x).1 (NewValue [] x).2 (NewValue [] x).2).1
        (Add (NewValue [] x).1 (NewValue [] x).2 (NewValue [] x).2).2)
      (NewValue [] x).2 = F.fin 2 := by
  constructor
  · rw [show (Add (NewValue [] x).1 (NewValue [] x).2 (NewValue [] x).2).2 = 1 from rfl,
      addSelfHeap x, addSelf_backward1 T x, addSelf_backward2 T x]
    with_unfolding_all rfl
  · rw [show (Add (NewValue [] x).1 (NewValue [] x).2 (NewValue [] x).2).2 = 1 from rfl,
      addSelfHeap x, addSelf_backward1 T x]
    with_unfolding_all rfl

lemma dataOf_append_lt (g l : List Node) (n : Nat) (h : n < g.length) :
    dataOf (g ++ l) n = dataOf g n := by
  unfold dataOf
  rw [List.get?_append h]

/-- C3.  Power derivative rule with the edge-case guards.  First part: when
the closure of a power node runs, the base accumulates
b.value * a.value ^ (b.value - 1) * out.gradient exactly when a.value is
not 0, and the exponent accumulates ln(a.value) * out.value * out.gradient
exactly when a.value is strictly positive (otherwise the term is silently
skipped).  Second part: for a leaf a = -4, differentiating
power_scalar(a, 2) yields a.gradient = -8 and leaves the gradient of the
scalar-exponent node untouched at 0, for every approximation table. -/
theorem pow_backward_guards :
    (∀ (T : Transcend) (g : List Node) (n a b : Nat) (nd : Node),
        g.get? n = some nd → nd.op = Op.pow → nd.children = [a, b] →
        a < n → b < n → a ≠ b →
        gradOf (backStep T g n) a =
          (if dataOf g a ≠ F.fin 0 then
            addF (gradOf g a)
              (mulF (mulF (dataOf g b)
                  (powF T (dataOf g a) (subF (dataOf g b) (F.fin 1))))
                (gradOf g n))
           else gradOf g a) ∧
        gradOf (backStep T g n) b =
          (if gtZero (dataOf g a) = true then
            addF (gradOf g b)
              (mulF (mulF (lnF T (dataOf g a)) (dataOf g n)) (gradOf g n))
           else gradOf g b)) ∧
    (∀ T : Transcend,
        gradOf (Backward T (PowScalar T (NewValue [] (F.fin (-4))).1 0 (F.fin 2)).1
          (PowScalar T (NewValue [] (F.fin (-4))).1 0 (F.fin 2)).2) 0 = F.fin (-8) ∧
        gradOf (Backward T (PowScalar T (NewValue [] (F.fin (-4))).1 0 (F.fin 2)).1
          (PowScalar T (NewValue [] (F.fin (-4))).1 0 (F.fin 2)).2) 1 = F.fin 0) := by
  constructor
  · intro T g n a b nd hget hop hch ha hb hab
    have hnlen : n < g.length := (List.get?_eq_some.mp hget).1
    have halen : a < g.length := lt_trans ha hnlen
    have hblen : b < g.length := lt_trans hb hnlen
    have han : a ≠ n := Nat.ne_of_lt ha
    have hbn : b ≠ n := Nat.ne_of_lt hb
    have hba : b ≠ a := fun h => hab h.symm
    have e1 : ∀ w, gradOf (addGrad g a w) n = gradOf g n :=
      fun w => gradOf_addGrad_ne g a w n han
    have hbs : backStep T g n =
        (if gtZero (dataOf g a) = true then
          addGrad (if dataOf g a ≠ F.fin 0 then
              addGrad g a
                (mulF (mulF (dataOf g b)
                    (powF T (dataOf g a) (subF (dataOf g b) (F.fin 1))))
                  (gradOf g n))
            else g) b
            (mulF (mulF (lnF T (dataOf g a)) (dataOf g n)) (gradOf g n))
         else (if dataOf g a ≠ F.fin 0 then
            addGrad g a
              (mulF (mulF (dataOf g b)
                  (powF T (dataOf g a) (subF (dataOf g b) (F.fin 1))))
                (gradOf g n))
          else g)) := by
      simp only [backStep, hget, hop, hch]
      by_cases h0 : dataOf g a = F.fin 0
      · simp only [h0, ne_eq, not_true_eq_false, if_false]
      · simp only [ne_eq, h0, not_false_iff, if_true, dataOf_addGrad, e1]
    rw [hbs]
    constructor
    · by_cases hgt : gtZero (dataOf g a) = true
      · simp only [if_pos hgt]
        rw [gradOf_addGrad_ne _ b _ a hba]
        by_cases h0 : dataOf g a = F.fin 0
        · simp only [ne_eq, h0, not_true_eq_false, if_false]
        · simp only [ne_eq, h0, not_false_iff, if_true]
          exact gradOf_addGrad_self g a _ halen
      · simp only [if_neg hgt]
        by_cases h0 : dataOf g a = F.fin 0
        · simp only [ne_eq, h0, not_true_eq_false, if_false]
        · simp only [ne_eq, h0, not_false_iff, if_true]
          exact gradOf_addGrad_self g a _ halen
    · by_cases hgt : gtZero (dataOf g a) = true
      · simp only [if_pos hgt]
        by_cases h0 : dataOf g a = F.fin 0
        · simp only [ne_eq, h0, not_true_eq_false, if_false]
          exact gradOf_addGrad_self g b _ hblen
        · simp only [ne_eq, h0, not_false_iff, if_true]
          have hlen2 : b < (addGrad g a
              (mulF (mulF (dataOf g b)
                  (powF T (dataOf g a) (subF (dataOf g b) (F.fin 1))))
                (gradOf g n))).length := by
            rw [length_addGrad]; exact hblen
          rw [gradOf_addGrad_self _ b _ hlen2]
          rw [gradOf_addGrad_ne g a _ b (fun h => hab h)]
      · simp only [if_neg hgt]
        by_cases h0 : dataOf g a = F.fin 0
        · simp only [ne_eq, h0, not_true_eq_false, if_false]
        · simp only [ne_eq, h0, not_false_iff, if_true]
          exact gradOf_addGrad_ne g a _ b hab
  · intro T
    exact ⟨by with_unfolding_all rfl, by with_unfolding_all rfl⟩

/-- Witness for C3: the universal part instantiated on the concrete
power-scalar arena (pow node 2 over base leaf 0 and exponent constant 1),
and the concrete part at the trivial approximation table. -/
theorem pow_backward_guards_witness :
    (gradOf (backStep T0 (PowScalar T0 (NewValue [] (F.fin (-4))).1 0 (F.fin 2)).1 2) 0 =
      (if dataOf (PowScalar T0 (NewValue [] (F.fin (-4))).1 0 (F.fin 2)).1 0 ≠ F.fin 0 then
        addF (gradOf (PowScalar T0 (NewValue [] (F.fin (-4))).1 0 (F.fin 2)).1 0)
          (mulF (mulF (dataOf (PowScalar T0 (NewValue [] (F.fin (-4))).1 0 (F.fin 2)).1 1)
              (powF T0 (dataOf (PowScalar T0 (NewValue [] (F.fin (-4))).1 0 (F.fin 2)).1 0)
                (subF (dataOf (PowScalar T0 (NewValue [] (F.fin (-4))).1 0 (F.fin 2)).1 1)
                  (F.fin 1))))
            (gradOf (PowScalar T0 (NewValue [] (F.fin (-4))).1 0 (F.fin 2)).1 2))
       else gradOf (PowScalar T0 (NewValue [] (F.fin (-4))).1 0 (F.fin 2)).1 0)) ∧
    gradOf (Backward T0 (PowScalar T0 (NewValue [] (F.fin (-4))).1 0 (F.fin 2)).1
      (PowScalar T0 (NewValue [] (F.fin (-4))).1 0 (F.fin 2)).2) 0 = F.fin (-8) := by
  constructor
  · exact (pow_backward_guards.1 T0 (PowScalar T0 (NewValue [] (F.fin (-4))).1 0 (F.fin 2)).1
      2 0 1 ⟨F.fin 16, F.fin 0, [0, 1], Op.pow⟩ (by with_unfolding_all rfl) rfl rfl
      (by omega) (by omega) (by omega)).1
  · exact (pow_backward_guards.2 T0).1

/-- C4.  Relu forward and strict boundary.  First part: the forward value of
relu(a) is max(0, a.value) for every node with a finite value.  Second
part: when the relu closure runs, the output gradient is added to the
operand gradient exactly when a.value > 0 (strict test).  Third part: for a
leaf with value 0, differentiate(relu(a)) leaves a.gradient = 0. -/
theorem relu_forward_and_strict_gradient :
    (∀ (g : List Node) (a : Nat) (q : ℚ), dataOf g a = F.fin q →
        dataOf (ReLU g a).1 (ReLU g a).2 = F.fin (max 0 q)) ∧
    (∀ (g : List Node) (a : Nat), dataOf g a = F.pinf →
        dataOf (ReLU g a).1 (ReLU g a).2 = F.pinf) ∧
    (∀ (g : List Node) (a : Nat), dataOf g a = F.ninf →
        dataOf (ReLU g a).1 (ReLU g a).2 = F.fin 0) ∧
    (∀ (T : Transcend) (g : List Node) (n a : Nat) (nd : Node),
        g.get? n = some nd → nd.op = Op.relu → nd.children = [a] → a < n →
        gradOf (backStep T g n) a =
          (if gtZero (dataOf g a) = true then addF (gradOf g a) (gradOf g n)
           else gradOf g a)) ∧
    (∀ T : Transcend,
        gradOf (Backward T (ReLU (NewValue [] (F.fin 0)).1 0).1
          (ReLU (NewValue [] (F.fin 0)).1 0).2) 0 = F.fin 0) := by
  refine ⟨?_, ?_, ?_, ?_, ?_⟩
  · intro g a q h
    have hget : (ReLU g a).1.get? (ReLU g a).2 =
        some ⟨if gtZero (dataOf g a) = true then dataOf g a else F.fin 0,
          F.fin 0, [a], Op.relu⟩ :=
      List.get?_concat_length g _
    unfold dataOf
    rw [hget]
    rw [h]
    by_cases hq : 0 < q
    · simp only [gtZero, hq, decide_true_eq_true, if_pos]
      rw [max_eq_right hq.le]
    · simp only [gtZero, decide_eq_true_eq, hq, if_false]
      rw [max_eq_left (le_of_not_lt hq)]
  · intro g a h
    have hget : (ReLU g a).1.get? (ReLU g a).2 =
        some ⟨if gtZero (dataOf g a) = true then dataOf g a else F.fin 0,
          F.fin 0, [a], Op.relu⟩ :=
      List.get?_concat_length g _
    unfold dataOf
    rw [hget, h]
    rfl
  · intro g a h
    have hget : (ReLU g a).1.get? (ReLU g a).2 =
        some ⟨if gtZero (dataOf g a) = true then dataOf g a else F.fin 0,
          F.fin 0, [a], Op.relu⟩ :=
      List.get?_concat_length g _
    unfold dataOf
    rw [hget, h]
    rfl
  · intro T g n a nd hget hop hch ha
    have hnlen : n < g.length := (List.get?_eq_some.mp hget).1
    have halen : a < g.length := lt_trans ha hnlen
    simp only [backStep, hget, hop, hch]
    by_cases hgt : gtZero (dataOf g a) = true
    · simp only [if_pos hgt]
      exact gradOf_addGrad_self g a _ halen
    · simp only [if_neg hgt]
  · intro T
    with_unfolding_all rfl

/-- Witness for C4: the forward part on a leaf of value 3, the strict
gradient part on the relu-of-zero arena, and the boundary scenario at the
trivial approximation table. -/
theorem relu_forward_and_strict_gradient_witness :
    dataOf (ReLU exHeap 0).1 (ReLU exHeap 0).2 = F.fin (max 0 3) ∧
    gradOf (backStep T0 (ReLU (NewValue [] (F.fin 0)).1 0).1 1) 0 =
      (if gtZero (dataOf (ReLU (NewValue [] (F.fin 0)).1 0).1 0) = true then
        addF (gradOf (ReLU (NewValue [] (F.fin 0)).1 0).1 0)
          (gradOf (ReLU (NewValue [] (F.fin 0)).1 0).1 1)
       else gradOf (ReLU (NewValue [] (F.fin 0)).1 0).1 0) ∧
    gradOf (Backward T0 (ReLU (NewValue [] (F.fin 0)).1 0).1
      (ReLU (NewValue [] (F.fin 0)).1 0).2) 0 = F.fin 0 := by
  refine ⟨?_, ?_, ?_⟩
  · exact relu_forward_and_strict_gradient.1 exHeap 0 3 (by with_unfolding_all rfl)
  · exact relu_forward_and_strict_gradient.2.2.2.1 T0
      (ReLU (NewValue [] (F.fin 0)).1 0).1
      1 0 ⟨F.fin 0, F.fin 0, [0], Op.relu⟩ (by with_unfolding_all rfl) rfl rfl
      (by omega)
  · exact relu_forward_and_strict_gradient.2.2.2.2 T0

/-- C8.  Division by a node whose value is 0 returns normally: divide(a,b)
is built as multiply(a, power(b, leaf(-1))); the freshly allocated constant
node holds -1, the power node power(b, -1) holds the infinite forward value
+Inf (no error is signalled), and the returned multiply node wires a to
that power node. -/
theorem div_by_zero_infinite (T : Transcend) (g : List Node) (a b : Nat)
    (hb : dataOf g b = F.fin 0) (ha : a < g.length) :
    (Div T g a b).2 = g.length + 2 ∧
    (Div T g a b).1.get? g.length = some ⟨F.fin (-1), F.fin 0, [], Op.leaf⟩ ∧
    (Div T g a b).1.get? (g.length + 1) =
      some ⟨F.pinf, F.fin 0, [b, g.length], Op.pow⟩ ∧
    (Div T g a b).1.get? (g.length + 2) =
      some ⟨mulF (dataOf g a) F.pinf, F.fin 0, [a, g.length + 1], Op.mul⟩ := by
  have hblen : b < g.length := by
    unfold dataOf at hb
    cases hg : g.get? b with
    | none => rw [hg] at hb; exact absurd hb (fun h => F.noConfusion h)
    | some nd => exact (List.get?_eq_some.mp hg).1
  have hd1 : dataOf (g ++ [(⟨F.fin (-1), F.fin 0, [], Op.leaf⟩ : Node)]) b
      = F.fin 0 := by
    rw [dataOf_append_lt g _ b hblen]; exact hb
  have hd2 : dataOf (g ++ [(⟨F.fin (-1), F.fin 0, [], Op.leaf⟩ : Node)]) g.length
      = F.fin (-1) := by
    unfold dataOf
    rw [List.get?_concat_length]
  have hpow : powF T (F.fin 0) (F.fin (-1)) = F.pinf := by with_unfolding_all rfl
  have hlen1 : (g ++ [(⟨F.fin (-1), F.fin 0, [], Op.leaf⟩ : Node)]).length
      = g.length + 1 := by simp
  simp only [Div, PowScalar, Pow, Multiply, convertToValue]
  rw [hd1, hd2, hpow, hlen1]
  have hda : dataOf ((g ++ [(⟨F.fin (-1), F.fin 0, [], Op.leaf⟩ : Node)]) ++
      [(⟨F.pinf, F.fin 0, [b, g.length], Op.pow⟩ : Node)]) a = dataOf g a := by
    rw [dataOf_append_lt _ _ a (by simpa using Nat.lt_succ_of_lt ha),
      dataOf_append_lt g _ a ha]
  have hdp : dataOf ((g ++ [(⟨F.fin (-1), F.fin 0, [], Op.leaf⟩ : Node)]) ++
      [(⟨F.pinf, F.fin 0, [b, g.length], Op.pow⟩ : Node)]) (g.length + 1)
      = F.pinf := by
    unfold dataOf
    rw [show g.length + 1
        = (g ++ [(⟨F.fin (-1), F.fin 0, [], Op.leaf⟩ : Node)]).length from hlen1.symm]
    rw [List.get?_concat_length]
  rw [hda, hdp]
  refine ⟨by simp, ?_, ?_, ?_⟩
  · rw [List.get?_append (by simp :
      g.length < ((g ++ [(⟨F.fin (-1), F.fin 0, [], Op.leaf⟩ : Node)]) ++
        [(⟨F.pinf, F.fin 0, [b, g.length], Op.pow⟩ : Node)]).length)]
    rw [List.get?_append (by simp :
      g.length < (g ++ [(⟨F.fin (-1), F.fin 0, [], Op.leaf⟩ : Node)]).length)]
    exact List.get?_concat_length g _
  · rw [List.get?_append (by simp :
      g.length + 1 < ((g ++ [(⟨F.fin (-1), F.fin 0, [], Op.leaf⟩ : Node)]) ++
        [(⟨F.pinf, F.fin 0, [b, g.length], Op.pow⟩ : Node)]).length)]
    rw [show g.length + 1
        = (g ++ [(⟨F.fin (-1), F.fin 0, [], Op.leaf⟩ : Node)]).length from hlen1.symm]
    exact List.get?_concat_length _ _
  · rw [show g.length + 2
        = ((g ++ [(⟨F.fin (-1), F.fin 0, [], Op.leaf⟩ : Node)]) ++
          [(⟨F.pinf, F.fin 0, [b, g.length], Op.pow⟩ : Node)]).length from by simp]
    exact List.get?_concat_length _ _

/-- Witness for C8 on a two-leaf arena with b.value = 0. -/
theorem div_by_zero_infinite_witness :
    (Div T0 (NewValue (NewValue [] (F.fin 3)).1 (F.fin 0)).1 0 1).2 = 4 ∧
    (Div T0 (NewValue (NewValue [] (F.fin 3)).1 (F.fin 0)).1 0 1).1.get? 2 =
      some ⟨F.fin (-1), F.fin 0, [], Op.leaf⟩ ∧
    (Div T0 (NewValue (NewValue [] (F.fin 3)).1 (F.fin 0)).1 0 1).1.get? 3 =
      some ⟨F.pinf, F.fin 0, [1, 2], Op.pow⟩ ∧
    (Div T0 (NewValue (NewValue [] (F.fin 3)).1 (F.fin 0)).1 0 1).1.get? 4 =
      some ⟨mulF (dataOf (NewValue (NewValue [] (F.fin 3)).1 (F.fin 0)).1 0) F.pinf,
        F.fin 0, [0, 3], Op.mul⟩ :=
  div_by_zero_infinite T0 (NewValue (NewValue [] (F.fin 3)).1 (F.fin 0)).1 0 1
    (by with_unfolding_all rfl) (by with_unfolding_all decide)

end Micrograd
